import Mathlib

/-!
Verification of the CAN packet codec of the `uds` repository
(`src/uds/packet/can_packet.py`).

The two packet classes `CanPacket` (validated) and `AnyCanPacket`
(permissive) are embedded shallowly: their attribute dictionaries become
state records with `Option` fields (a `None`-initialised attribute is
`none`), and every mutator becomes a function that returns the state as
it is at the moment the call finishes — including the state at the
moment a Python exception would be raised, so that atomicity properties
are faithful to the source's in-place mutation order.

The helper module `uds.can` (DLC codec, CAN-ID codec, addressing
information codec and the four PCI frame handlers) and the validators of
`uds.utilities` are part of this repository but are not under `src/`;
those definitions are modelled from the specification and carry a
`Modelled from the spec:` doc comment.
-/

/-- Error kinds raised by the codec (spec section 7). `invalidArgument`
covers Python `ValueError`/`TypeError`, `inconsistency` the
InconsistencyError kind, `ambiguity` the `AmbiguityError` of
`uds.utilities`. -/
inductive UdsErr where
  | invalidArgument
  | inconsistency
  | ambiguity
deriving DecidableEq

deriving instance DecidableEq for Except

/-- Structured warning emitted by `CanPacket.set_address_information`
when caller-supplied addressing parameters are not used by the chosen
addressing format (`UnusedArgumentWarning`).  The three components carry
the `target_address`, `source_address` and `address_extension` values
named by the warning message (a component is `none` when the message
does not mention that parameter). -/
inductive UdsWarning where
  | unusedArguments (target_address source_address address_extension : Option Nat)
deriving DecidableEq

/-- Addressing type enumeration (`uds.transmission_attributes`). -/
inductive AddressingType where
  | PHYSICAL
  | FUNCTIONAL
deriving DecidableEq

/-- CAN addressing format enumeration (`uds.can.CanAddressingFormat`). -/
inductive CanAddressingFormat where
  | NORMAL_11BIT_ADDRESSING
  | NORMAL_FIXED_ADDRESSING
  | EXTENDED_ADDRESSING
  | MIXED_11BIT_ADDRESSING
  | MIXED_29BIT_ADDRESSING
deriving DecidableEq

/-- CAN packet type (N_PCI high nibble) enumeration
(`uds.packet.can_packet_type.CanPacketType`). -/
inductive CanPacketType where
  | SINGLE_FRAME
  | FIRST_FRAME
  | CONSECUTIVE_FRAME
  | FLOW_CONTROL
deriving DecidableEq

/-- Numeric N_PCI nibble value of each packet type
(SF=0x0, FF=0x1, CF=0x2, FC=0x3). -/
def CanPacketType.toNibble : CanPacketType → Nat
  | .SINGLE_FRAME => 0
  | .FIRST_FRAME => 1
  | .CONSECUTIVE_FRAME => 2
  | .FLOW_CONTROL => 3

/-- Modelled from the spec: `uds.utilities.validate_raw_bytes` is not
under `src/`.  Raw frame data must be a sequence of raw bytes
(each value 0x00..0xFF); an empty sequence is accepted only when
`allow_empty` is set. -/
def validate_raw_bytes (value : List Nat) (allow_empty : Bool) : Except UdsErr Unit :=
  if (allow_empty || !value.isEmpty) && value.all (· < 256) then .ok () else .error .invalidArgument

/-- Modelled from the spec: `uds.can.CanDlcHandler.decode_dlc` is not
under `src/`.  Total table from a DLC nibble to the CAN frame byte
count: `0..8 map to themselves, 9 to 12, 10 to 16, 11 to 20, 12 to 24,
13 to 32, 14 to 48, 15 to 64` (spec section 4.A). -/
def CanDlcHandler.decode_dlc (d : Nat) : Nat :=
  if d ≤ 8 then d
  else if d = 9 then 12
  else if d = 10 then 16
  else if d = 11 then 20
  else if d = 12 then 24
  else if d = 13 then 32
  else if d = 14 then 48
  else 64

/-- Modelled from the spec: `uds.can.CanDlcHandler.encode_dlc` is not
under `src/`.  Smallest DLC whose byte count is at least `n`; fails when
`n > 64` (spec section 4.A). -/
def CanDlcHandler.encode_dlc (n : Nat) : Except UdsErr Nat :=
  if n ≤ 8 then .ok n
  else if n ≤ 12 then .ok 9
  else if n ≤ 16 then .ok 10
  else if n ≤ 20 then .ok 11
  else if n ≤ 24 then .ok 12
  else if n ≤ 32 then .ok 13
  else if n ≤ 48 then .ok 14
  else if n ≤ 64 then .ok 15
  else .error .invalidArgument

/-- Modelled from the spec:
`uds.can.CanDlcHandler.validate_data_bytes_number` is not under `src/`.
Succeeds iff `n` appears in the DLC table
`{0..8, 12, 16, 20, 24, 32, 48, 64}` (spec section 4.A). -/
def CanDlcHandler.validate_data_bytes_number (n : Nat) : Except UdsErr Unit :=
  if n ≤ 8 ∨ n = 12 ∨ n = 16 ∨ n = 20 ∨ n = 24 ∨ n = 32 ∨ n = 48 ∨ n = 64 then
    .ok ()
  else .error .invalidArgument

theorem CanDlcHandler.encode_dlc_le {n d : Nat} (h : CanDlcHandler.encode_dlc n = .ok d) :
    d ≤ 15 ∧ n ≤ CanDlcHandler.decode_dlc d := by
  unfold CanDlcHandler.encode_dlc at h
  split_ifs at h <;>
    first
      | exact (Except.noConfusion h)
      | (injection h with h; subst h
         refine ⟨by omega, ?_⟩
         simp only [CanDlcHandler.decode_dlc]
         split_ifs <;> omega)

theorem CanDlcHandler.encode_decode {d : Nat} (h : d ≤ 15) :
    CanDlcHandler.encode_dlc (CanDlcHandler.decode_dlc d) = .ok d := by
  interval_cases d <;> rfl

theorem CanDlcHandler.validate_ok_of_decode {d : Nat} (h : d ≤ 15) :
    CanDlcHandler.validate_data_bytes_number (CanDlcHandler.decode_dlc d) = .ok () := by
  interval_cases d <;> rfl

/-- Modelled from the spec: `uds.can.CanIdHandler.validate_can_id` is
not under `src/`.  A CAN Identifier is either 11-bit or 29-bit, so any
value below `2 ^ 29` is in range (spec section 4.B). -/
def CanIdHandler.validate_can_id (v : Nat) : Except UdsErr Unit :=
  if v < 2 ^ 29 then .ok () else .error .invalidArgument

/-- Modelled from the spec:
`uds.can.CanIdHandler.encode_normal_fixed_addressed_can_id` is not under
`src/`.  A 29-bit identifier `0x18DA TA SA` for physical addressing and
`0x18DB TA SA` for functional addressing (spec sections 4.B and 6). -/
def CanIdHandler.encode_normal_fixed_addressed_can_id
    (addressing_type : AddressingType) (target_address source_address : Nat) : Nat :=
  (match addressing_type with
   | .PHYSICAL => 0x18DA0000
   | .FUNCTIONAL => 0x18DB0000) + target_address * 256 + source_address

/-- Modelled from the spec:
`uds.can.CanIdHandler.decode_normal_fixed_addressed_can_id` is not under
`src/`.  Inverse of the encoder; fails (here: `none`) when the two high
bytes of the identifier are not `0x18DA`/`0x18DB` (spec section 4.B). -/
def CanIdHandler.decode_normal_fixed_addressed_can_id
    (can_id : Nat) : Option (AddressingType × Nat × Nat) :=
  if can_id / 65536 = 0x18DA then some (.PHYSICAL, can_id / 256 % 256, can_id % 256)
  else if can_id / 65536 = 0x18DB then some (.FUNCTIONAL, can_id / 256 % 256, can_id % 256)
  else none

/-- Modelled from the spec:
`uds.can.CanIdHandler.encode_mixed_addressed_29bit_can_id` is not under
`src/`.  A 29-bit identifier `0x18CE TA SA` for physical addressing and
`0x18CD TA SA` for functional addressing (spec sections 4.B and 6). -/
def CanIdHandler.encode_mixed_addressed_29bit_can_id
    (addressing_type : AddressingType) (target_address source_address : Nat) : Nat :=
  (match addressing_type with
   | .PHYSICAL => 0x18CE0000
   | .FUNCTIONAL => 0x18CD0000) + target_address * 256 + source_address

/-- Modelled from the spec:
`uds.can.CanIdHandler.decode_mixed_addressed_29bit_can_id` is not under
`src/`.  Inverse of the mixed 29-bit encoder (spec section 4.B). -/
def CanIdHandler.decode_mixed_addressed_29bit_can_id
    (can_id : Nat) : Option (AddressingType × Nat × Nat) :=
  if can_id / 65536 = 0x18CE then some (.PHYSICAL, can_id / 256 % 256, can_id % 256)
  else if can_id / 65536 = 0x18CD then some (.FUNCTIONAL, can_id / 256 % 256, can_id % 256)
  else none

theorem CanIdHandler.decode_encode_normal_fixed
    (typ : AddressingType) {t s : Nat} (ht : t < 256) (hs : s < 256) :
    CanIdHandler.decode_normal_fixed_addressed_can_id
      (CanIdHandler.encode_normal_fixed_addressed_can_id typ t s) = some (typ, t, s) := by
  cases typ
  · have h1 : (0x18DA0000 + t * 256 + s) / 65536 = 0x18DA := by omega
    have h2 : (0x18DA0000 + t * 256 + s) / 256 % 256 = t := by omega
    have h3 : (0x18DA0000 + t * 256 + s) % 256 = s := by omega
    simp [CanIdHandler.decode_normal_fixed_addressed_can_id,
      CanIdHandler.encode_normal_fixed_addressed_can_id, h1, h2, h3]
  · have h1 : (0x18DB0000 + t * 256 + s) / 65536 = 0x18DB := by omega
    have h2 : (0x18DB0000 + t * 256 + s) / 256 % 256 = t := by omega
    have h3 : (0x18DB0000 + t * 256 + s) % 256 = s := by omega
    simp [CanIdHandler.decode_normal_fixed_addressed_can_id,
      CanIdHandler.encode_normal_fixed_addressed_can_id, h1, h2, h3]

theorem CanIdHandler.decode_encode_mixed_29bit
    (typ : AddressingType) {t s : Nat} (ht : t < 256) (hs : s < 256) :
    CanIdHandler.decode_mixed_addressed_29bit_can_id
      (CanIdHandler.encode_mixed_addressed_29bit_can_id typ t s) = some (typ, t, s) := by
  cases typ
  · have h1 : (0x18CE0000 + t * 256 + s) / 65536 = 0x18CE := by omega
    have h2 : (0x18CE0000 + t * 256 + s) / 256 % 256 = t := by omega
    have h3 : (0x18CE0000 + t * 256 + s) % 256 = s := by omega
    simp [CanIdHandler.decode_mixed_addressed_29bit_can_id,
      CanIdHandler.encode_mixed_addressed_29bit_can_id, h1, h2, h3]
  · have h1 : (0x18CD0000 + t * 256 + s) / 65536 = 0x18CD := by omega
    have h2 : (0x18CD0000 + t * 256 + s) / 256 % 256 = t := by omega
    have h3 : (0x18CD0000 + t * 256 + s) % 256 = s := by omega
    simp [CanIdHandler.decode_mixed_addressed_29bit_can_id,
      CanIdHandler.encode_mixed_addressed_29bit_can_id, h1, h2, h3]

/-- Modelled from the spec:
`uds.can.CanAddressingInformationHandler.get_ai_data_bytes_number` is
not under `src/`.  Number of leading CAN frame data bytes consumed by
Addressing Information for each format (spec section 4.C). -/
def CanAddressingInformationHandler.get_ai_data_bytes_number : CanAddressingFormat → Nat
  | .NORMAL_11BIT_ADDRESSING => 0
  | .NORMAL_FIXED_ADDRESSING => 0
  | .EXTENDED_ADDRESSING => 1
  | .MIXED_11BIT_ADDRESSING => 1
  | .MIXED_29BIT_ADDRESSING => 1

/-- Modelled from the spec:
`uds.can.CanAddressingInformationHandler.encode_ai_data_bytes` is not
under `src/`.  The AI data bytes are empty for the normal formats, the
target address for extended addressing and the address extension for the
mixed formats; a missing or out-of-range required byte is an error
(spec section 4.C). -/
def CanAddressingInformationHandler.encode_ai_data_bytes
    (addressing_format : CanAddressingFormat)
    (target_address address_extension : Option Nat) : Except UdsErr (List Nat) :=
  match addressing_format with
  | .NORMAL_11BIT_ADDRESSING | .NORMAL_FIXED_ADDRESSING => .ok []
  | .EXTENDED_ADDRESSING =>
    match target_address with
    | some t => if t < 256 then .ok [t] else .error .invalidArgument
    | none => .error .invalidArgument
  | .MIXED_11BIT_ADDRESSING | .MIXED_29BIT_ADDRESSING =>
    match address_extension with
    | some a => if a < 256 then .ok [a] else .error .invalidArgument
    | none => .error .invalidArgument

theorem CanAddressingInformationHandler.encode_ai_length
    {fmt : CanAddressingFormat} {ta ae : Option Nat} {l : List Nat}
    (h : CanAddressingInformationHandler.encode_ai_data_bytes fmt ta ae = .ok l) :
    l.length = CanAddressingInformationHandler.get_ai_data_bytes_number fmt := by
  cases fmt <;>
    simp only [CanAddressingInformationHandler.encode_ai_data_bytes,
      CanAddressingInformationHandler.get_ai_data_bytes_number] at h ⊢ <;>
    first
      | (injection h with h; subst h; rfl)
      | (cases ta with
          | none => exact (Except.noConfusion h)
          | some t =>
            by_cases ht : t < 256
            · simp [ht] at h
              subst h
              rfl
            · simp [ht] at h)
      | (cases ae with
          | none => exact (Except.noConfusion h)
          | some a =>
            by_cases ha : a < 256
            · simp [ha] at h
              subst h
              rfl
            · simp [ha] at h)

/-- Decoded Addressing Information, as the dictionary returned by
`uds.can.CanAddressingInformationHandler.decode_ai`: each field is
absent when the addressing format does not carry it. -/
structure AddressingInfo where
  target_address : Option Nat
  source_address : Option Nat
  address_extension : Option Nat
deriving DecidableEq

/-- Modelled from the spec:
`uds.can.CanAddressingInformationHandler.decode_ai` is not under
`src/`.  Decodes TA/SA/AE from the CAN identifier and the leading AI
data bytes; fields absent per the section 4.C table are absent in the
output, and (per the permissive accessor contract of section 4.F) a CAN
identifier that cannot be decoded yields absence rather than a
failure. -/
def CanAddressingInformationHandler.decode_ai
    (addressing_format : CanAddressingFormat) (can_id : Nat)
    (ai_data_bytes : List Nat) : Option AddressingInfo :=
  match addressing_format with
  | .NORMAL_11BIT_ADDRESSING => some ⟨none, none, none⟩
  | .NORMAL_FIXED_ADDRESSING =>
    (CanIdHandler.decode_normal_fixed_addressed_can_id can_id).map
      fun i => ⟨some i.2.1, some i.2.2, none⟩
  | .EXTENDED_ADDRESSING =>
    (ai_data_bytes.get? 0).map fun t => ⟨some t, none, none⟩
  | .MIXED_11BIT_ADDRESSING =>
    (ai_data_bytes.get? 0).map fun a => ⟨none, none, some a⟩
  | .MIXED_29BIT_ADDRESSING =>
    match CanIdHandler.decode_mixed_addressed_29bit_can_id can_id, ai_data_bytes.get? 0 with
    | some i, some a => some ⟨some i.2.1, some i.2.2, some a⟩
    | _, _ => none

/-- Modelled from the spec:
`uds.can.CanAddressingInformationHandler.validate_ai_normal_11bit` is
not under `src/`.  Normal 11-bit addressing requires an 11-bit CAN
identifier (spec section 4.C). -/
def CanAddressingInformationHandler.validate_ai_normal_11bit
    (_addressing_type : AddressingType) (can_id : Option Nat) : Except UdsErr Unit :=
  match can_id with
  | some c => if c < 2 ^ 11 then .ok () else .error .invalidArgument
  | none => .error .invalidArgument

/-- Modelled from the spec:
`uds.can.CanAddressingInformationHandler.validate_ai_normal_fixed` is
not under `src/`.  Requires either a well-formed normal-fixed-addressed
CAN identifier matching the addressing type, or a (TA, SA) byte pair
from which one can be synthesized; explicit TA/SA values that disagree
with those derivable from the CAN identifier are an inconsistency
(spec sections 4.C and 7). -/
def CanAddressingInformationHandler.validate_ai_normal_fixed
    (addressing_type : AddressingType)
    (can_id target_address source_address : Option Nat) : Except UdsErr Unit :=
  match can_id with
  | none =>
    match target_address, source_address with
    | some t, some s => if t < 256 ∧ s < 256 then .ok () else .error .invalidArgument
    | _, _ => .error .invalidArgument
  | some c =>
    match CanIdHandler.decode_normal_fixed_addressed_can_id c with
    | none => .error .invalidArgument
    | some (typ, t, s) =>
      if typ ≠ addressing_type then .error .invalidArgument
      else if target_address ≠ none ∧ target_address ≠ some t then .error .inconsistency
      else if source_address ≠ none ∧ source_address ≠ some s then .error .inconsistency
      else .ok ()

/-- Modelled from the spec:
`uds.can.CanAddressingInformationHandler.validate_ai_extended` is not
under `src/`.  Extended addressing requires an in-range CAN identifier
and a non-None target address byte (spec section 4.C). -/
def CanAddressingInformationHandler.validate_ai_extended
    (_addressing_type : AddressingType)
    (can_id target_address : Option Nat) : Except UdsErr Unit :=
  match can_id, target_address with
  | some c, some t => if c < 2 ^ 29 ∧ t < 256 then .ok () else .error .invalidArgument
  | _, _ => .error .invalidArgument

/-- Modelled from the spec:
`uds.can.CanAddressingInformationHandler.validate_ai_mixed_11bit` is
not under `src/`.  Mixed 11-bit addressing requires an 11-bit CAN
identifier and a non-None address extension byte (spec section 4.C). -/
def CanAddressingInformationHandler.validate_ai_mixed_11bit
    (_addressing_type : AddressingType)
    (can_id address_extension : Option Nat) : Except UdsErr Unit :=
  match can_id, address_extension with
  | some c, some a => if c < 2 ^ 11 ∧ a < 256 then .ok () else .error .invalidArgument
  | _, _ => .error .invalidArgument

/-- Modelled from the spec:
`uds.can.CanAddressingInformationHandler.validate_ai_mixed_29bit` is
not under `src/`.  Like normal fixed addressing but with the mixed
29-bit identifier layout and an additional required address extension
byte (spec section 4.C). -/
def CanAddressingInformationHandler.validate_ai_mixed_29bit
    (addressing_type : AddressingType)
    (can_id target_address source_address address_extension : Option Nat) :
    Except UdsErr Unit :=
  match address_extension with
  | none => .error .invalidArgument
  | some a =>
    if a < 256 then
      match can_id with
      | none =>
        match target_address, source_address with
        | some t, some s => if t < 256 ∧ s < 256 then .ok () else .error .invalidArgument
        | _, _ => .error .invalidArgument
      | some c =>
        match CanIdHandler.decode_mixed_addressed_29bit_can_id c with
        | none => .error .invalidArgument
        | some (typ, t, s) =>
          if typ ≠ addressing_type then .error .invalidArgument
          else if target_address ≠ none ∧ target_address ≠ some t then .error .inconsistency
          else if source_address ≠ none ∧ source_address ≠ some s then .error .inconsistency
          else .ok ()
    else .error .invalidArgument

/-- Resolution of an optional DLC argument inside a frame encoder:
an explicit DLC must be a nibble, and an absent one is chosen by CAN
frame data optimization as the smallest DLC whose byte count fits
`min_length` (spec section 4.D, edge-case policies). -/
def resolveDlcOr (min_length : Nat) (dlc : Option Nat) : Except UdsErr Nat :=
  match dlc with
  | some d => if d ≤ 15 then .ok d else .error .invalidArgument
  | none => CanDlcHandler.encode_dlc min_length

/-- DLC resolution for a Single Frame: the minimum frame size counts
one PCI byte when a short-form frame (total length at most 8) would
result and two PCI bytes for the escape form (spec section 4.D). -/
def resolveSfDlc (ai_length payload_length : Nat) (dlc : Option Nat) : Except UdsErr Nat :=
  resolveDlcOr
    (if ai_length + 1 + payload_length ≤ 8 then ai_length + 1 + payload_length
     else ai_length + 2 + payload_length) dlc

/-- Python truthiness of the `dlc or CanDlcHandler.encode_dlc(...)`
expression used by the data setters of `CanPacket`: an explicit non-zero
DLC is kept, otherwise the DLC is re-encoded from the frame length. -/
def pyOrDlc (dlc : Option Nat) (frame_length : Nat) : Except UdsErr Nat :=
  match dlc with
  | some d => if d = 0 then CanDlcHandler.encode_dlc frame_length else .ok d
  | none => CanDlcHandler.encode_dlc frame_length

/-- Single Frame payload decoding on the frame bytes that follow the AI
data bytes (`tl`), given the total frame length.  Short form (total
length at most 8): the PCI low nibble is SF_DL; escape form: the PCI
byte is 0x00 and SF_DL is the next byte.  Absence on a PCI nibble other
than 0x0 or on truncated bytes. -/
def sfPayloadCore (frame_length : Nat) (tl : List Nat) : Option (List Nat) :=
  match tl with
  | [] => none
  | b :: rest =>
    if b / 16 ≠ 0 then none
    else if frame_length ≤ 8 then
      if b % 16 ≤ rest.length then some (rest.take (b % 16)) else none
    else
      match rest with
      | [] => none
      | sf_dl :: rest2 =>
        if b % 16 ≠ 0 then none
        else if sf_dl ≤ rest2.length then some (rest2.take sf_dl) else none

/-- Single Frame data length decoding on the bytes after the AI data
bytes; mirrors `sfPayloadCore`. -/
def sfDlCore (frame_length : Nat) (tl : List Nat) : Option Nat :=
  match tl with
  | [] => none
  | b :: rest =>
    if b / 16 ≠ 0 then none
    else if frame_length ≤ 8 then some (b % 16)
    else
      match rest with
      | [] => none
      | sf_dl :: _ => if b % 16 ≠ 0 then none else some sf_dl

/-- First Frame data length decoding on the bytes after the AI data
bytes.  Short form: 12-bit FF_DL from the PCI low nibble and the next
byte; escape form (low nibble 0, next byte 0): 32-bit big-endian FF_DL
from the following four bytes. -/
def ffDlCore (tl : List Nat) : Option Nat :=
  match tl with
  | b :: b2 :: rest =>
    if b / 16 ≠ 1 then none
    else if b % 16 = 0 ∧ b2 = 0 then
      match rest with
      | c3 :: c2 :: c1 :: c0 :: _ => some (((c3 * 256 + c2) * 256 + c1) * 256 + c0)
      | _ => none
    else some ((b % 16) * 256 + b2)
  | _ => none

/-- First Frame payload decoding on the bytes after the AI data bytes:
everything after the FF_DL field. -/
def ffPayloadCore (tl : List Nat) : Option (List Nat) :=
  match tl with
  | b :: b2 :: rest =>
    if b / 16 ≠ 1 then none
    else if b % 16 = 0 ∧ b2 = 0 then
      if 4 ≤ rest.length then some (rest.drop 4) else none
    else some rest
  | _ => none

/-- Consecutive Frame sequence number decoding on the bytes after the
AI data bytes: the PCI low nibble when the high nibble is 0x2. -/
def cfSnCore (tl : List Nat) : Option Nat :=
  match tl with
  | b :: _ => if b / 16 = 2 then some (b % 16) else none
  | [] => none

/-- Consecutive Frame payload decoding on the bytes after the AI data
bytes: the remainder of the frame (possibly including padding). -/
def cfPayloadCore (tl : List Nat) : Option (List Nat) :=
  match tl with
  | b :: rest => if b / 16 = 2 then some rest else none
  | [] => none

/-- Flow Control flow status decoding on the bytes after the AI data
bytes: the PCI low nibble when the high nibble is 0x3 (reserved values
are tolerated on decode). -/
def fcFsCore (tl : List Nat) : Option Nat :=
  match tl with
  | b :: _ => if b / 16 = 3 then some (b % 16) else none
  | [] => none

/-- Flow Control block size decoding: the byte after the PCI byte. -/
def fcBsCore (tl : List Nat) : Option Nat :=
  match tl with
  | b :: c :: _ => if b / 16 = 3 then some c else none
  | _ => none

/-- Flow Control STmin decoding: the second byte after the PCI byte. -/
def fcStCore (tl : List Nat) : Option Nat :=
  match tl with
  | b :: _ :: s :: _ => if b / 16 = 3 then some s else none
  | _ => none

/-- Modelled from the spec:
`uds.can.CanSingleFrameHandler.decode_payload` is not under `src/`
(spec sections 4.D and 4.F). -/
def CanSingleFrameHandler.decode_payload
    (addressing_format : CanAddressingFormat) (raw_frame_data : List Nat) :
    Option (List Nat) :=
  sfPayloadCore raw_frame_data.length
    (raw_frame_data.drop (CanAddressingInformationHandler.get_ai_data_bytes_number addressing_format))

/-- Modelled from the spec:
`uds.can.CanSingleFrameHandler.decode_sf_dl` is not under `src/`
(spec sections 4.D and 4.F). -/
def CanSingleFrameHandler.decode_sf_dl
    (addressing_format : CanAddressingFormat) (raw_frame_data : List Nat) : Option Nat :=
  sfDlCore raw_frame_data.length
    (raw_frame_data.drop (CanAddressingInformationHandler.get_ai_data_bytes_number addressing_format))

/-- Modelled from the spec:
`uds.can.CanFirstFrameHandler.decode_ff_dl` is not under `src/`
(spec sections 4.D and 4.F). -/
def CanFirstFrameHandler.decode_ff_dl
    (addressing_format : CanAddressingFormat) (raw_frame_data : List Nat) : Option Nat :=
  ffDlCore
    (raw_frame_data.drop (CanAddressingInformationHandler.get_ai_data_bytes_number addressing_format))

/-- Modelled from the spec:
`uds.can.CanFirstFrameHandler.decode_payload` is not under `src/`
(spec sections 4.D and 4.F). -/
def CanFirstFrameHandler.decode_payload
    (addressing_format : CanAddressingFormat) (raw_frame_data : List Nat) :
    Option (List Nat) :=
  ffPayloadCore
    (raw_frame_data.drop (CanAddressingInformationHandler.get_ai_data_bytes_number addressing_format))

/-- Modelled from the spec:
`uds.can.CanConsecutiveFrameHandler.decode_sequence_number` is not under
`src/` (spec sections 4.D and 4.F). -/
def CanConsecutiveFrameHandler.decode_sequence_number
    (addressing_format : CanAddressingFormat) (raw_frame_data : List Nat) : Option Nat :=
  cfSnCore
    (raw_frame_data.drop (CanAddressingInformationHandler.get_ai_data_bytes_number addressing_format))

/-- Modelled from the spec:
`uds.can.CanConsecutiveFrameHandler.decode_payload` is not under `src/`
(spec sections 4.D and 4.F). -/
def CanConsecutiveFrameHandler.decode_payload
    (addressing_format : CanAddressingFormat) (raw_frame_data : List Nat) :
    Option (List Nat) :=
  cfPayloadCore
    (raw_frame_data.drop (CanAddressingInformationHandler.get_ai_data_bytes_number addressing_format))

/-- Modelled from the spec:
`uds.can.CanFlowControlHandler.decode_flow_status` is not under `src/`
(spec sections 4.D and 4.F). -/
def CanFlowControlHandler.decode_flow_status
    (addressing_format : CanAddressingFormat) (raw_frame_data : List Nat) : Option Nat :=
  fcFsCore
    (raw_frame_data.drop (CanAddressingInformationHandler.get_ai_data_bytes_number addressing_format))

/-- Modelled from the spec:
`uds.can.CanFlowControlHandler.decode_block_size` is not under `src/`.
Per the kind-level absence contract of the accessors (spec sections 4.E
and failure semantics), the transmitted block size byte is returned for
any Flow Control frame. -/
def CanFlowControlHandler.decode_block_size
    (addressing_format : CanAddressingFormat) (raw_frame_data : List Nat) : Option Nat :=
  fcBsCore
    (raw_frame_data.drop (CanAddressingInformationHandler.get_ai_data_bytes_number addressing_format))

/-- Modelled from the spec:
`uds.can.CanFlowControlHandler.decode_st_min` is not under `src/`.
Like `decode_block_size`, the transmitted STmin byte is returned for
any Flow Control frame. -/
def CanFlowControlHandler.decode_st_min
    (addressing_format : CanAddressingFormat) (raw_frame_data : List Nat) : Option Nat :=
  fcStCore
    (raw_frame_data.drop (CanAddressingInformationHandler.get_ai_data_bytes_number addressing_format))

/-- Modelled from the spec:
`uds.can.CanSingleFrameHandler.create_valid_frame_data` is not under
`src/`.  Builds a fully padded Single Frame: AI data bytes, one-byte PCI
(short form, total length at most 8) or `0x00` plus an SF_DL byte
(escape form), the payload, then filler padding; the smallest legal DLC
is chosen when `dlc` is absent (spec section 4.D). -/
def CanSingleFrameHandler.create_valid_frame_data
    (addressing_format : CanAddressingFormat)
    (target_address address_extension : Option Nat)
    (dlc : Option Nat) (payload : List Nat) (filler_byte : Nat) :
    Except UdsErr (List Nat) :=
  match CanAddressingInformationHandler.encode_ai_data_bytes
      addressing_format target_address address_extension with
  | .error e => .error e
  | .ok ai =>
    if payload.isEmpty || !payload.all (· < 256) || !(filler_byte < 256 : Bool) then
      .error .invalidArgument
    else
      match resolveSfDlc ai.length payload.length dlc with
      | .error e => .error e
      | .ok d =>
        if CanDlcHandler.decode_dlc d ≤ 8 then
          if ai.length + 1 + payload.length ≤ CanDlcHandler.decode_dlc d then
            .ok (ai ++ (payload.length :: (payload ++
              List.replicate (CanDlcHandler.decode_dlc d - (ai.length + 1 + payload.length))
                filler_byte)))
          else .error .invalidArgument
        else
          if ai.length + 2 + payload.length ≤ CanDlcHandler.decode_dlc d then
            .ok (ai ++ (0 :: (payload.length :: (payload ++
              List.replicate (CanDlcHandler.decode_dlc d - (ai.length + 2 + payload.length))
                filler_byte))))
          else .error .invalidArgument

/-- Modelled from the spec:
`uds.can.CanFirstFrameHandler.create_valid_frame_data` is not under
`src/`.  The DLC is mandatory and must fully occupy the frame; FF_DL is
encoded in the 12-bit short form below 4096 and in the 32-bit big-endian
escape form from 4096 up (spec section 4.D). -/
def CanFirstFrameHandler.create_valid_frame_data
    (addressing_format : CanAddressingFormat)
    (target_address address_extension : Option Nat)
    (dlc : Nat) (payload : List Nat) (ff_dl : Nat) :
    Except UdsErr (List Nat) :=
  match CanAddressingInformationHandler.encode_ai_data_bytes
      addressing_format target_address address_extension with
  | .error e => .error e
  | .ok ai =>
    if !payload.all (· < 256) || !(dlc ≤ 15 : Bool) || !(8 ≤ CanDlcHandler.decode_dlc dlc : Bool) then
      .error .invalidArgument
    else
      if ff_dl ≤ 4095 then
        if 8 - ai.length ≤ ff_dl ∧ ai.length + 2 + payload.length = CanDlcHandler.decode_dlc dlc then
          .ok (ai ++ ((16 + ff_dl / 256) :: ((ff_dl % 256) :: payload)))
        else .error .invalidArgument
      else if ff_dl < 2 ^ 32 then
        if ai.length + 6 + payload.length = CanDlcHandler.decode_dlc dlc then
          .ok (ai ++ (16 :: (0 :: ((ff_dl / 2 ^ 24 % 256) :: ((ff_dl / 2 ^ 16 % 256) ::
            ((ff_dl / 2 ^ 8 % 256) :: ((ff_dl % 256) :: payload)))))))
        else .error .invalidArgument
      else .error .invalidArgument

/-- Modelled from the spec:
`uds.can.CanConsecutiveFrameHandler.create_valid_frame_data` is not
under `src/`.  PCI byte `0x2S` with the sequence number nibble, payload,
filler padding to the chosen DLC (spec section 4.D). -/
def CanConsecutiveFrameHandler.create_valid_frame_data
    (addressing_format : CanAddressingFormat)
    (target_address address_extension : Option Nat)
    (dlc : Option Nat) (payload : List Nat) (sequence_number : Nat) (filler_byte : Nat) :
    Except UdsErr (List Nat) :=
  match CanAddressingInformationHandler.encode_ai_data_bytes
      addressing_format target_address address_extension with
  | .error e => .error e
  | .ok ai =>
    if payload.isEmpty || !payload.all (· < 256) || !(filler_byte < 256 : Bool) ||
        !(sequence_number ≤ 15 : Bool) then
      .error .invalidArgument
    else
      match resolveDlcOr (ai.length + 1 + payload.length) dlc with
      | .error e => .error e
      | .ok d =>
        if ai.length + 1 + payload.length ≤ CanDlcHandler.decode_dlc d then
          .ok (ai ++ ((32 + sequence_number) :: (payload ++
            List.replicate (CanDlcHandler.decode_dlc d - (ai.length + 1 + payload.length))
              filler_byte)))
        else .error .invalidArgument

/-- Resolution of the Flow Control block size / STmin bytes: mandatory
bytes for ContinueToSend, otherwise optional with the filler byte
substituted for an absent value (spec section 4.D). -/
def resolveFcBsSt (flow_status : Nat) (block_size st_min : Option Nat)
    (filler_byte : Nat) : Except UdsErr (Nat × Nat) :=
  if flow_status = 0 then
    match block_size, st_min with
    | some b, some s => if b < 256 ∧ s < 256 then .ok (b, s) else .error .invalidArgument
    | _, _ => .error UdsErr.invalidArgument
  else
    if block_size.getD filler_byte < 256 ∧ st_min.getD filler_byte < 256 then
      .ok (block_size.getD filler_byte, st_min.getD filler_byte)
    else .error UdsErr.invalidArgument

/-- Modelled from the spec:
`uds.can.CanFlowControlHandler.create_valid_frame_data` is not under
`src/`.  PCI byte `0x3F` with the flow status nibble (reserved values
3..15 rejected on encode), then the block size and STmin bytes — both
mandatory for ContinueToSend, optional otherwise (transmitted when
supplied, replaced with the filler byte when not), then filler padding
(spec section 4.D). -/
def CanFlowControlHandler.create_valid_frame_data
    (addressing_format : CanAddressingFormat)
    (target_address address_extension : Option Nat)
    (dlc : Option Nat) (flow_status : Nat) (block_size st_min : Option Nat)
    (filler_byte : Nat) :
    Except UdsErr (List Nat) :=
  match CanAddressingInformationHandler.encode_ai_data_bytes
      addressing_format target_address address_extension with
  | .error e => .error e
  | .ok ai =>
    if !(flow_status ≤ 2 : Bool) || !(filler_byte < 256 : Bool) then
      .error .invalidArgument
    else
      match resolveFcBsSt flow_status block_size st_min filler_byte with
      | .error e => .error e
      | .ok (bs, st) =>
        match resolveDlcOr (ai.length + 3) dlc with
        | .error e => .error e
        | .ok d =>
          if ai.length + 3 ≤ CanDlcHandler.decode_dlc d then
            .ok (ai ++ ((48 + flow_status) :: (bs :: (st ::
              List.replicate (CanDlcHandler.decode_dlc d - (ai.length + 3)) filler_byte))))
          else .error .invalidArgument

theorem sf_create_spec
    {fmt : CanAddressingFormat} {ta ae : Option Nat} {dlc : Option Nat}
    {payload : List Nat} {filler : Nat} {rfd : List Nat}
    (h : CanSingleFrameHandler.create_valid_frame_data fmt ta ae dlc payload filler = .ok rfd) :
    (∃ ai, CanAddressingInformationHandler.encode_ai_data_bytes fmt ta ae = .ok ai ∧
      rfd.take (CanAddressingInformationHandler.get_ai_data_bytes_number fmt) = ai) ∧
    CanAddressingInformationHandler.get_ai_data_bytes_number fmt < rfd.length ∧
    (∃ d, pyOrDlc dlc rfd.length = .ok d ∧ d ≤ 15 ∧
      rfd.length = CanDlcHandler.decode_dlc d) ∧
    CanSingleFrameHandler.decode_payload fmt rfd = some payload ∧
    CanSingleFrameHandler.decode_sf_dl fmt rfd = some payload.length := by
  unfold CanSingleFrameHandler.create_valid_frame_data at h
  cases he : CanAddressingInformationHandler.encode_ai_data_bytes fmt ta ae with
  | error e => simp [he] at h
  | ok ai =>
  simp only [he] at h
  have hai := CanAddressingInformationHandler.encode_ai_length he
  split_ifs at h with hc
  have hpl1 : 1 ≤ payload.length := by
    cases payload with
    | nil => simp at hc
    | cons a l => simp
  cases hd : resolveSfDlc ai.length payload.length dlc with
  | error e => simp [hd] at h
  | ok d =>
  simp only [hd] at h
  have hd15 : d ≤ 15 := by
    cases dlc with
    | some d0 =>
      simp only [resolveSfDlc, resolveDlcOr] at hd
      split_ifs at hd with h15
      injection hd with hd; omega
    | none =>
      simp only [resolveSfDlc, resolveDlcOr] at hd
      exact (CanDlcHandler.encode_dlc_le hd).1
  split_ifs at h with h8 hfit hfit
  · -- short form
    injection h with h
    subst h
    have hlen : (ai ++ (payload.length :: (payload ++
        List.replicate (CanDlcHandler.decode_dlc d - (ai.length + 1 + payload.length))
          filler))).length = CanDlcHandler.decode_dlc d := by
      simp [List.length_append]
      omega
    have hdrop : (ai ++ (payload.length :: (payload ++
        List.replicate (CanDlcHandler.decode_dlc d - (ai.length + 1 + payload.length))
          filler))).drop (CanAddressingInformationHandler.get_ai_data_bytes_number fmt) =
        payload.length :: (payload ++
          List.replicate (CanDlcHandler.decode_dlc d - (ai.length + 1 + payload.length))
            filler) := by
      rw [← hai]
      exact List.drop_left _ _
    have hdiv : payload.length / 16 = 0 := Nat.div_eq_of_lt (by omega)
    have hmod : payload.length % 16 = payload.length := Nat.mod_eq_of_lt (by omega)
    refine ⟨⟨ai, rfl, ?_⟩, ?_, ⟨d, ?_, hd15, hlen⟩, ?_, ?_⟩
    · rw [← hai]
      exact List.take_left _ _
    · rw [hlen]; omega
    · cases dlc with
      | some d0 =>
        simp only [resolveSfDlc, resolveDlcOr] at hd
        split_ifs at hd with h15
        injection hd with hd
        have hne : d0 ≠ 0 := by
          intro h0
          rw [← hd, h0] at hfit
          simp [CanDlcHandler.decode_dlc] at hfit
        subst hd
        simp [pyOrDlc, hne]
      | none =>
        rw [hlen]
        simp only [pyOrDlc]
        exact CanDlcHandler.encode_decode hd15
    · unfold CanSingleFrameHandler.decode_payload
      rw [hdrop, hlen]
      simp only [sfPayloadCore, hdiv, hmod]
      rw [if_neg (by simp), if_pos h8,
        if_pos (by simp [List.length_append]), List.take_left]
    · unfold CanSingleFrameHandler.decode_sf_dl
      rw [hdrop, hlen]
      simp only [sfDlCore, hdiv, hmod]
      rw [if_neg (by simp), if_pos h8]
  · -- escape form
    injection h with h
    subst h
    have hlen : (ai ++ (0 :: (payload.length :: (payload ++
        List.replicate (CanDlcHandler.decode_dlc d - (ai.length + 2 + payload.length))
          filler)))).length = CanDlcHandler.decode_dlc d := by
      simp [List.length_append]
      omega
    have hdrop : (ai ++ (0 :: (payload.length :: (payload ++
        List.replicate (CanDlcHandler.decode_dlc d - (ai.length + 2 + payload.length))
          filler)))).drop (CanAddressingInformationHandler.get_ai_data_bytes_number fmt) =
        0 :: (payload.length :: (payload ++
          List.replicate (CanDlcHandler.decode_dlc d - (ai.length + 2 + payload.length))
            filler)) := by
      rw [← hai]
      exact List.drop_left _ _
    refine ⟨⟨ai, rfl, ?_⟩, ?_, ⟨d, ?_, hd15, hlen⟩, ?_, ?_⟩
    · rw [← hai]
      exact List.take_left _ _
    · rw [hlen]; omega
    · cases dlc with
      | some d0 =>
        simp only [resolveSfDlc, resolveDlcOr] at hd
        split_ifs at hd with h15
        injection hd with hd
        have hne : d0 ≠ 0 := by
          intro h0
          rw [← hd, h0] at h8
          simp [CanDlcHandler.decode_dlc] at h8
        subst hd
        simp [pyOrDlc, hne]
      | none =>
        rw [hlen]
        simp only [pyOrDlc]
        exact CanDlcHandler.encode_decode hd15
    · unfold CanSingleFrameHandler.decode_payload
      rw [hdrop, hlen]
      simp only [sfPayloadCore]
      rw [if_neg (by simp), if_neg h8, if_neg (by simp),
        if_pos (by simp [List.length_append]), List.take_left]
    · unfold CanSingleFrameHandler.decode_sf_dl
      rw [hdrop, hlen]
      simp only [sfDlCore]
      rw [if_neg (by simp), if_neg h8, if_neg (by simp)]

theorem CanAddressingInformationHandler.ai_bytes_le_one (fmt : CanAddressingFormat) :
    CanAddressingInformationHandler.get_ai_data_bytes_number fmt ≤ 1 := by
  cases fmt <;> simp [CanAddressingInformationHandler.get_ai_data_bytes_number]

theorem cf_create_spec
    {fmt : CanAddressingFormat} {ta ae : Option Nat} {dlc : Option Nat}
    {payload : List Nat} {sn filler : Nat} {rfd : List Nat}
    (h : CanConsecutiveFrameHandler.create_valid_frame_data fmt ta ae dlc payload sn filler =
      .ok rfd) :
    (∃ ai, CanAddressingInformationHandler.encode_ai_data_bytes fmt ta ae = .ok ai ∧
      rfd.take (CanAddressingInformationHandler.get_ai_data_bytes_number fmt) = ai) ∧
    CanAddressingInformationHandler.get_ai_data_bytes_number fmt < rfd.length ∧
    (∃ d, pyOrDlc dlc rfd.length = .ok d ∧ d ≤ 15 ∧
      rfd.length = CanDlcHandler.decode_dlc d) ∧
    CanConsecutiveFrameHandler.decode_sequence_number fmt rfd = some sn ∧
    (CanConsecutiveFrameHandler.decode_payload fmt rfd).isSome = true := by
  unfold CanConsecutiveFrameHandler.create_valid_frame_data at h
  cases he : CanAddressingInformationHandler.encode_ai_data_bytes fmt ta ae with
  | error e => simp [he] at h
  | ok ai =>
  simp only [he] at h
  have hai := CanAddressingInformationHandler.encode_ai_length he
  split_ifs at h with hc
  have hpl1 : 1 ≤ payload.length := by
    cases payload with
    | nil => simp at hc
    | cons a l => simp
  have hsn : sn ≤ 15 := by
    by_contra hgt
    simp [hgt] at hc
  cases hd : resolveDlcOr (ai.length + 1 + payload.length) dlc with
  | error e => simp [hd] at h
  | ok d =>
  simp only [hd] at h
  have hd15 : d ≤ 15 := by
    cases dlc with
    | some d0 =>
      simp only [resolveDlcOr] at hd
      split_ifs at hd with h15
      injection hd with hd; omega
    | none => exact (CanDlcHandler.encode_dlc_le hd).1
  split_ifs at h with hfit
  injection h with h
  subst h
  have hlen : (ai ++ ((32 + sn) :: (payload ++
      List.replicate (CanDlcHandler.decode_dlc d - (ai.length + 1 + payload.length))
        filler))).length = CanDlcHandler.decode_dlc d := by
    simp [List.length_append]
    omega
  have hdrop : (ai ++ ((32 + sn) :: (payload ++
      List.replicate (CanDlcHandler.decode_dlc d - (ai.length + 1 + payload.length))
        filler))).drop (CanAddressingInformationHandler.get_ai_data_bytes_number fmt) =
      (32 + sn) :: (payload ++
        List.replicate (CanDlcHandler.decode_dlc d - (ai.length + 1 + payload.length))
          filler) := by
    rw [← hai]
    exact List.drop_left _ _
  have hdiv : (32 + sn) / 16 = 2 := by omega
  have hmod : (32 + sn) % 16 = sn := by omega
  refine ⟨⟨ai, rfl, ?_⟩, ?_, ⟨d, ?_, hd15, hlen⟩, ?_, ?_⟩
  · rw [← hai]
    exact List.take_left _ _
  · rw [hlen]; omega
  · cases dlc with
    | some d0 =>
      simp only [resolveDlcOr] at hd
      split_ifs at hd with h15
      injection hd with hd
      have hne : d0 ≠ 0 := by
        intro h0
        rw [← hd, h0] at hfit
        simp [CanDlcHandler.decode_dlc] at hfit
      subst hd
      simp [pyOrDlc, hne]
    | none =>
      rw [hlen]
      simp only [pyOrDlc]
      exact CanDlcHandler.encode_decode hd15
  · unfold CanConsecutiveFrameHandler.decode_sequence_number
    rw [hdrop]
    simp only [cfSnCore, hdiv, hmod]
    rfl
  · unfold CanConsecutiveFrameHandler.decode_payload
    rw [hdrop]
    simp [cfPayloadCore, hdiv]

theorem ff_create_spec
    {fmt : CanAddressingFormat} {ta ae : Option Nat} {dlc : Nat}
    {payload : List Nat} {ff_dl : Nat} {rfd : List Nat}
    (h : CanFirstFrameHandler.create_valid_frame_data fmt ta ae dlc payload ff_dl = .ok rfd) :
    (∃ ai, CanAddressingInformationHandler.encode_ai_data_bytes fmt ta ae = .ok ai ∧
      rfd.take (CanAddressingInformationHandler.get_ai_data_bytes_number fmt) = ai) ∧
    CanAddressingInformationHandler.get_ai_data_bytes_number fmt < rfd.length ∧
    dlc ≤ 15 ∧ rfd.length = CanDlcHandler.decode_dlc dlc ∧
    CanFirstFrameHandler.decode_ff_dl fmt rfd = some ff_dl ∧
    (CanFirstFrameHandler.decode_payload fmt rfd).isSome = true := by
  unfold CanFirstFrameHandler.create_valid_frame_data at h
  cases he : CanAddressingInformationHandler.encode_ai_data_bytes fmt ta ae with
  | error e => simp [he] at h
  | ok ai =>
  simp only [he] at h
  have hai := CanAddressingInformationHandler.encode_ai_length he
  have hai1 : ai.length ≤ 1 := by
    rw [hai]
    exact CanAddressingInformationHandler.ai_bytes_le_one fmt
  split_ifs at h with hc hshort hok hesc hok
  · -- short form
    have hd15 : dlc ≤ 15 := by
      by_contra hgt
      simp [hgt] at hc
    injection h with h
    subst h
    have hlen : (ai ++ ((16 + ff_dl / 256) :: ((ff_dl % 256) :: payload))).length =
        CanDlcHandler.decode_dlc dlc := by
      simp [List.length_append]
      omega
    have hdrop : (ai ++ ((16 + ff_dl / 256) :: ((ff_dl % 256) :: payload))).drop
        (CanAddressingInformationHandler.get_ai_data_bytes_number fmt) =
        (16 + ff_dl / 256) :: ((ff_dl % 256) :: payload) := by
      rw [← hai]
      exact List.drop_left _ _
    have hq : ff_dl / 256 ≤ 15 := by omega
    have hdiv : (16 + ff_dl / 256) / 16 = 1 := by omega
    have hmod : (16 + ff_dl / 256) % 16 = ff_dl / 256 := by omega
    have hpos : 1 ≤ ff_dl := by omega
    refine ⟨⟨ai, rfl, ?_⟩, ?_, hd15, hlen, ?_, ?_⟩
    · rw [← hai]
      exact List.take_left _ _
    · rw [hlen]; omega
    · unfold CanFirstFrameHandler.decode_ff_dl
      rw [hdrop]
      simp only [ffDlCore, hdiv, hmod]
      rw [if_neg (by omega), if_neg (by omega)]
      congr 1
      omega
    · unfold CanFirstFrameHandler.decode_payload
      rw [hdrop]
      simp only [ffPayloadCore, hdiv, hmod]
      rw [if_neg (by omega), if_neg (by omega)]
      rfl
  · -- escape form
    have hd15 : dlc ≤ 15 := by
      by_contra hgt
      simp [hgt] at hc
    injection h with h
    subst h
    have hlen : (ai ++ (16 :: (0 :: ((ff_dl / 2 ^ 24 % 256) :: ((ff_dl / 2 ^ 16 % 256) ::
        ((ff_dl / 2 ^ 8 % 256) :: ((ff_dl % 256) :: payload))))))).length =
        CanDlcHandler.decode_dlc dlc := by
      simp [List.length_append]
      omega
    have hdrop : (ai ++ (16 :: (0 :: ((ff_dl / 2 ^ 24 % 256) :: ((ff_dl / 2 ^ 16 % 256) ::
        ((ff_dl / 2 ^ 8 % 256) :: ((ff_dl % 256) :: payload))))))).drop
        (CanAddressingInformationHandler.get_ai_data_bytes_number fmt) =
        16 :: (0 :: ((ff_dl / 2 ^ 24 % 256) :: ((ff_dl / 2 ^ 16 % 256) ::
          ((ff_dl / 2 ^ 8 % 256) :: ((ff_dl % 256) :: payload))))) := by
      rw [← hai]
      exact List.drop_left _ _
    refine ⟨⟨ai, rfl, ?_⟩, ?_, hd15, hlen, ?_, ?_⟩
    · rw [← hai]
      exact List.take_left _ _
    · rw [hlen]; omega
    · unfold CanFirstFrameHandler.decode_ff_dl
      rw [hdrop]
      simp only [ffDlCore]
      norm_num
      omega
    · unfold CanFirstFrameHandler.decode_payload
      rw [hdrop]
      simp [ffPayloadCore]

theorem fc_create_spec
    {fmt : CanAddressingFormat} {ta ae : Option Nat} {dlc : Option Nat}
    {fs : Nat} {bs st : Option Nat} {filler : Nat} {rfd : List Nat}
    (h : CanFlowControlHandler.create_valid_frame_data fmt ta ae dlc fs bs st filler =
      .ok rfd) :
    (∃ ai, CanAddressingInformationHandler.encode_ai_data_bytes fmt ta ae = .ok ai ∧
      rfd.take (CanAddressingInformationHandler.get_ai_data_bytes_number fmt) = ai) ∧
    CanAddressingInformationHandler.get_ai_data_bytes_number fmt < rfd.length ∧
    (∃ d, pyOrDlc dlc rfd.length = .ok d ∧ d ≤ 15 ∧
      rfd.length = CanDlcHandler.decode_dlc d) ∧
    CanFlowControlHandler.decode_flow_status fmt rfd = some fs ∧
    (CanFlowControlHandler.decode_block_size fmt rfd).isSome = true ∧
    (CanFlowControlHandler.decode_st_min fmt rfd).isSome = true := by
  unfold CanFlowControlHandler.create_valid_frame_data at h
  cases he : CanAddressingInformationHandler.encode_ai_data_bytes fmt ta ae with
  | error e => simp [he] at h
  | ok ai =>
  simp only [he] at h
  have hai := CanAddressingInformationHandler.encode_ai_length he
  split_ifs at h with hc
  have hfs : fs ≤ 2 := by
    by_contra hgt
    simp [hgt] at hc
  cases hbst : resolveFcBsSt fs bs st filler with
  | error e => simp [hbst] at h
  | ok bst =>
  simp only [hbst] at h
  cases hd : resolveDlcOr (ai.length + 3) dlc with
  | error e => simp [hd] at h
  | ok d =>
  simp only [hd] at h
  have hd15 : d ≤ 15 := by
    cases dlc with
    | some d0 =>
      simp only [resolveDlcOr] at hd
      split_ifs at hd with h15
      injection hd with hd; omega
    | none => exact (CanDlcHandler.encode_dlc_le hd).1
  split_ifs at h with hfit
  injection h with h
  subst h
  have hlen : (ai ++ ((48 + fs) :: (bst.1 :: (bst.2 ::
      List.replicate (CanDlcHandler.decode_dlc d - (ai.length + 3)) filler)))).length =
      CanDlcHandler.decode_dlc d := by
    simp [List.length_append]
    omega
  have hdrop : (ai ++ ((48 + fs) :: (bst.1 :: (bst.2 ::
      List.replicate (CanDlcHandler.decode_dlc d - (ai.length + 3)) filler)))).drop
      (CanAddressingInformationHandler.get_ai_data_bytes_number fmt) =
      (48 + fs) :: (bst.1 :: (bst.2 ::
        List.replicate (CanDlcHandler.decode_dlc d - (ai.length + 3)) filler)) := by
    rw [← hai]
    exact List.drop_left _ _
  have hdiv : (48 + fs) / 16 = 3 := by omega
  have hmod : (48 + fs) % 16 = fs := by omega
  refine ⟨⟨ai, rfl, ?_⟩, ?_, ⟨d, ?_, hd15, hlen⟩, ?_, ?_, ?_⟩
  · rw [← hai]
    exact List.take_left _ _
  · rw [hlen]; omega
  · cases dlc with
    | some d0 =>
      simp only [resolveDlcOr] at hd
      split_ifs at hd with h15
      injection hd with hd
      have hne : d0 ≠ 0 := by
        intro h0
        rw [← hd, h0] at hfit
        simp [CanDlcHandler.decode_dlc] at hfit
      subst hd
      simp [pyOrDlc, hne]
    | none =>
      rw [hlen]
      simp only [pyOrDlc]
      exact CanDlcHandler.encode_decode hd15
  · unfold CanFlowControlHandler.decode_flow_status
    rw [hdrop]
    simp only [fcFsCore, hdiv, hmod]
    rfl
  · unfold CanFlowControlHandler.decode_block_size
    rw [hdrop]
    simp [fcBsCore, hdiv]
  · unfold CanFlowControlHandler.decode_st_min
    rw [hdrop]
    simp [fcStCore, hdiv]

/-- Attribute state of a `CanPacket` object
(`src/uds/packet/can_packet.py`, `CanPacket.__init__` lines 77-86):
every private attribute starts out as Python `None`, here `none`. -/
structure CanPacketS where
  raw_frame_data : Option (List Nat)
  addressing_type : Option AddressingType
  addressing_format : Option CanAddressingFormat
  packet_type : Option CanPacketType
  can_id : Option Nat
  dlc : Option Nat
  target_address : Option Nat
  source_address : Option Nat
  address_extension : Option Nat
deriving DecidableEq

/-- The all-`None` state a `CanPacket` has at the start of `__init__`. -/
def CanPacketS.initial : CanPacketS :=
  ⟨none, none, none, none, none, none, none, none, none⟩

/-- Result of one mutator call on a `CanPacket`: the attribute state at
the moment the call returns or raises (Python mutates in place, so on an
exception `state` is whatever the object holds at the raise site), the
warnings emitted, and the raised error if any. -/
structure SetOutcome where
  state : CanPacketS
  warnings : List UdsWarning
  error : Option UdsErr
deriving DecidableEq

/-- `CanPacket.__validate_unambiguous_ai_change` (source lines 667-680):
raises `AmbiguityError` when an addressing format is already set and the
new format uses a different number of AI data bytes. -/
def CanPacketS.validate_unambiguous_ai_change (p : CanPacketS)
    (addressing_format : CanAddressingFormat) : Except UdsErr Unit :=
  match p.addressing_format with
  | none => .ok ()
  | some fmt =>
    if CanAddressingInformationHandler.get_ai_data_bytes_number addressing_format ≠
        CanAddressingInformationHandler.get_ai_data_bytes_number fmt then
      .error .ambiguity
    else .ok ()

/-- `CanPacket.__update_ai_data_byte` (source lines 682-689): when a
frame exists, re-encode the AI data bytes from the current addressing
attributes and splice them over the head of `raw_frame_data`. -/
def CanPacketS.update_ai_data_byte (p : CanPacketS) : SetOutcome :=
  match p.raw_frame_data with
  | none => ⟨p, [], none⟩
  | some rfd =>
    match p.addressing_format with
    | none => ⟨p, [], some .invalidArgument⟩
    | some fmt =>
      match CanAddressingInformationHandler.encode_ai_data_bytes fmt
          p.target_address p.address_extension with
      | .error e => ⟨p, [], some e⟩
      | .ok ai => ⟨{ p with raw_frame_data := some (ai ++ rfd.drop ai.length) }, [], none⟩

/-- `CanPacket.set_address_information_normal_11bit` (source lines
171-186). -/
def CanPacketS.set_address_information_normal_11bit (p : CanPacketS)
    (addressing_type : AddressingType) (can_id : Option Nat) : SetOutcome :=
  match CanAddressingInformationHandler.validate_ai_normal_11bit addressing_type can_id with
  | .error e => ⟨p, [], some e⟩
  | .ok _ =>
    match p.validate_unambiguous_ai_change .NORMAL_11BIT_ADDRESSING with
    | .error e => ⟨p, [], some e⟩
    | .ok _ =>
      CanPacketS.update_ai_data_byte
        { p with
          addressing_format := some .NORMAL_11BIT_ADDRESSING
          addressing_type := some addressing_type
          can_id := can_id
          target_address := none
          source_address := none
          address_extension := none }

/-- `CanPacket.set_address_information_normal_fixed` (source lines
188-224).  With an explicit CAN identifier the TA/SA attributes are
re-decoded from it (the decode happens after `can_id` is assigned, so a
decode failure would leave only `can_id` updated). -/
def CanPacketS.set_address_information_normal_fixed (p : CanPacketS)
    (addressing_type : AddressingType)
    (can_id target_address source_address : Option Nat) : SetOutcome :=
  match CanAddressingInformationHandler.validate_ai_normal_fixed addressing_type
      can_id target_address source_address with
  | .error e => ⟨p, [], some e⟩
  | .ok _ =>
    match p.validate_unambiguous_ai_change .NORMAL_FIXED_ADDRESSING with
    | .error e => ⟨p, [], some e⟩
    | .ok _ =>
      match can_id with
      | none =>
        match target_address, source_address with
        | some t, some s =>
          CanPacketS.update_ai_data_byte
            { p with
              addressing_format := some .NORMAL_FIXED_ADDRESSING
              addressing_type := some addressing_type
              can_id := some (CanIdHandler.encode_normal_fixed_addressed_can_id
                addressing_type t s)
              target_address := some t
              source_address := some s
              address_extension := none }
        | _, _ => ⟨p, [], some .invalidArgument⟩
      | some c =>
        match CanIdHandler.decode_normal_fixed_addressed_can_id c with
        | none => ⟨{ p with can_id := some c }, [], some .invalidArgument⟩
        | some (_, t, s) =>
          CanPacketS.update_ai_data_byte
            { p with
              addressing_format := some .NORMAL_FIXED_ADDRESSING
              addressing_type := some addressing_type
              can_id := some c
              target_address := some t
              source_address := some s
              address_extension := none }

/-- `CanPacket.set_address_information_extended` (source lines
226-247). -/
def CanPacketS.set_address_information_extended (p : CanPacketS)
    (addressing_type : AddressingType)
    (can_id target_address : Option Nat) : SetOutcome :=
  match CanAddressingInformationHandler.validate_ai_extended addressing_type
      can_id target_address with
  | .error e => ⟨p, [], some e⟩
  | .ok _ =>
    match p.validate_unambiguous_ai_change .EXTENDED_ADDRESSING with
    | .error e => ⟨p, [], some e⟩
    | .ok _ =>
      CanPacketS.update_ai_data_byte
        { p with
          addressing_format := some .EXTENDED_ADDRESSING
          addressing_type := some addressing_type
          can_id := can_id
          target_address := target_address
          source_address := none
          address_extension := none }

/-- `CanPacket.set_address_information_mixed_11bit` (source lines
249-270). -/
def CanPacketS.set_address_information_mixed_11bit (p : CanPacketS)
    (addressing_type : AddressingType)
    (can_id address_extension : Option Nat) : SetOutcome :=
  match CanAddressingInformationHandler.validate_ai_mixed_11bit addressing_type
      can_id address_extension with
  | .error e => ⟨p, [], some e⟩
  | .ok _ =>
    match p.validate_unambiguous_ai_change .MIXED_11BIT_ADDRESSING with
    | .error e => ⟨p, [], some e⟩
    | .ok _ =>
      CanPacketS.update_ai_data_byte
        { p with
          addressing_format := some .MIXED_11BIT_ADDRESSING
          addressing_type := some addressing_type
          can_id := can_id
          target_address := none
          source_address := none
          address_extension := address_extension }

/-- `CanPacket.set_address_information_mixed_29bit` (source lines
272-311). -/
def CanPacketS.set_address_information_mixed_29bit (p : CanPacketS)
    (addressing_type : AddressingType)
    (address_extension can_id target_address source_address : Option Nat) : SetOutcome :=
  match CanAddressingInformationHandler.validate_ai_mixed_29bit addressing_type
      can_id target_address source_address address_extension with
  | .error e => ⟨p, [], some e⟩
  | .ok _ =>
    match p.validate_unambiguous_ai_change .MIXED_29BIT_ADDRESSING with
    | .error e => ⟨p, [], some e⟩
    | .ok _ =>
      match can_id with
      | none =>
        match target_address, source_address with
        | some t, some s =>
          CanPacketS.update_ai_data_byte
            { p with
              addressing_format := some .MIXED_29BIT_ADDRESSING
              addressing_type := some addressing_type
              can_id := some (CanIdHandler.encode_mixed_addressed_29bit_can_id
                addressing_type t s)
              target_address := some t
              source_address := some s
              address_extension := address_extension }
        | _, _ => ⟨p, [], some .invalidArgument⟩
      | some c =>
        match CanIdHandler.decode_mixed_addressed_29bit_can_id c with
        | none => ⟨{ p with can_id := some c }, [], some .invalidArgument⟩
        | some (_, t, s) =>
          CanPacketS.update_ai_data_byte
            { p with
              addressing_format := some .MIXED_29BIT_ADDRESSING
              addressing_type := some addressing_type
              can_id := some c
              target_address := some t
              source_address := some s
              address_extension := address_extension }

/-- `CanPacket.set_address_information` (source lines 98-169): validate
the addressing format, dispatch to the per-format setter, and — only
when the setter returned normally — emit one `UnusedArgumentWarning`
listing the caller-supplied parameters the chosen format does not use. -/
def CanPacketS.set_address_information (p : CanPacketS)
    (addressing_format : CanAddressingFormat) (addressing_type : AddressingType)
    (can_id target_address source_address address_extension : Option Nat) : SetOutcome :=
  match addressing_format with
  | .NORMAL_11BIT_ADDRESSING =>
    match p.set_address_information_normal_11bit addressing_type can_id with
    | ⟨q, w, none⟩ =>
      if target_address ≠ none ∨ source_address ≠ none ∨ address_extension ≠ none then
        ⟨q, w ++ [.unusedArguments target_address source_address address_extension], none⟩
      else ⟨q, w, none⟩
    | o => o
  | .NORMAL_FIXED_ADDRESSING =>
    match p.set_address_information_normal_fixed addressing_type can_id
        target_address source_address with
    | ⟨q, w, none⟩ =>
      if address_extension ≠ none then
        ⟨q, w ++ [.unusedArguments none none address_extension], none⟩
      else ⟨q, w, none⟩
    | o => o
  | .EXTENDED_ADDRESSING =>
    match p.set_address_information_extended addressing_type can_id target_address with
    | ⟨q, w, none⟩ =>
      if source_address ≠ none ∨ address_extension ≠ none then
        ⟨q, w ++ [.unusedArguments none source_address address_extension], none⟩
      else ⟨q, w, none⟩
    | o => o
  | .MIXED_11BIT_ADDRESSING =>
    match p.set_address_information_mixed_11bit addressing_type can_id address_extension with
    | ⟨q, w, none⟩ =>
      if target_address ≠ none ∨ source_address ≠ none then
        ⟨q, w ++ [.unusedArguments target_address source_address none], none⟩
      else ⟨q, w, none⟩
    | o => o
  | .MIXED_29BIT_ADDRESSING =>
    p.set_address_information_mixed_29bit addressing_type address_extension can_id
      target_address source_address

/-- `CanPacket.set_single_frame_data` (source lines 365-392): build the
frame from the current addressing attributes, then assign
`raw_frame_data`, then `dlc` (via Python `dlc or encode_dlc(len)`), then
`packet_type` — the state at each potential raise site is returned. -/
def CanPacketS.set_single_frame_data (p : CanPacketS)
    (payload : List Nat) (dlc : Option Nat) (filler_byte : Nat) : SetOutcome :=
  match p.addressing_format with
  | none => ⟨p, [], some .invalidArgument⟩
  | some fmt =>
    match CanSingleFrameHandler.create_valid_frame_data fmt
        p.target_address p.address_extension dlc payload filler_byte with
    | .error e => ⟨p, [], some e⟩
    | .ok rfd =>
      match pyOrDlc dlc rfd.length with
      | .error e => ⟨{ p with raw_frame_data := some rfd }, [], some e⟩
      | .ok d =>
        ⟨{ p with
            raw_frame_data := some rfd
            dlc := some d
            packet_type := some .SINGLE_FRAME }, [], none⟩

/-- `CanPacket.set_first_frame_data` (source lines 394-417): the DLC is
a mandatory plain argument and is stored as given. -/
def CanPacketS.set_first_frame_data (p : CanPacketS)
    (dlc : Nat) (payload : List Nat) (data_length : Nat) : SetOutcome :=
  match p.addressing_format with
  | none => ⟨p, [], some .invalidArgument⟩
  | some fmt =>
    match CanFirstFrameHandler.create_valid_frame_data fmt
        p.target_address p.address_extension dlc payload data_length with
    | .error e => ⟨p, [], some e⟩
    | .ok rfd =>
      ⟨{ p with
          raw_frame_data := some rfd
          dlc := some dlc
          packet_type := some .FIRST_FRAME }, [], none⟩

/-- `CanPacket.set_consecutive_frame_data` (source lines 419-449). -/
def CanPacketS.set_consecutive_frame_data (p : CanPacketS)
    (payload : List Nat) (sequence_number : Nat) (dlc : Option Nat)
    (filler_byte : Nat) : SetOutcome :=
  match p.addressing_format with
  | none => ⟨p, [], some .invalidArgument⟩
  | some fmt =>
    match CanConsecutiveFrameHandler.create_valid_frame_data fmt
        p.target_address p.address_extension dlc payload sequence_number filler_byte with
    | .error e => ⟨p, [], some e⟩
    | .ok rfd =>
      match pyOrDlc dlc rfd.length with
      | .error e => ⟨{ p with raw_frame_data := some rfd }, [], some e⟩
      | .ok d =>
        ⟨{ p with
            raw_frame_data := some rfd
            dlc := some d
            packet_type := some .CONSECUTIVE_FRAME }, [], none⟩

/-- `CanPacket.set_flow_control_data` (source lines 451-484). -/
def CanPacketS.set_flow_control_data (p : CanPacketS)
    (flow_status : Nat) (block_size st_min : Option Nat) (dlc : Option Nat)
    (filler_byte : Nat) : SetOutcome :=
  match p.addressing_format with
  | none => ⟨p, [], some .invalidArgument⟩
  | some fmt =>
    match CanFlowControlHandler.create_valid_frame_data fmt
        p.target_address p.address_extension dlc flow_status block_size st_min
        filler_byte with
    | .error e => ⟨p, [], some e⟩
    | .ok rfd =>
      match pyOrDlc dlc rfd.length with
      | .error e => ⟨{ p with raw_frame_data := some rfd }, [], some e⟩
      | .ok d =>
        ⟨{ p with
            raw_frame_data := some rfd
            dlc := some d
            packet_type := some .FLOW_CONTROL }, [], none⟩

/-- The packet-type-specific keyword arguments accepted by
`CanPacket.set_packet_data` (source lines 313-363), one variant per
packet type. -/
inductive PacketDataArgs where
  | sf (payload : List Nat) (dlc : Option Nat) (filler_byte : Nat)
  | ff (dlc : Nat) (payload : List Nat) (data_length : Nat)
  | cf (payload : List Nat) (sequence_number : Nat) (dlc : Option Nat) (filler_byte : Nat)
  | fc (flow_status : Nat) (block_size st_min : Option Nat) (dlc : Option Nat)
      (filler_byte : Nat)
deriving DecidableEq

/-- `CanPacket.set_packet_data` (source lines 313-363): dispatch on the
packet type to the per-kind data setter. -/
def CanPacketS.set_packet_data (p : CanPacketS) (args : PacketDataArgs) : SetOutcome :=
  match args with
  | .sf payload dlc filler_byte => p.set_single_frame_data payload dlc filler_byte
  | .ff dlc payload data_length => p.set_first_frame_data dlc payload data_length
  | .cf payload sequence_number dlc filler_byte =>
    p.set_consecutive_frame_data payload sequence_number dlc filler_byte
  | .fc flow_status block_size st_min dlc filler_byte =>
    p.set_flow_control_data flow_status block_size st_min dlc filler_byte

/-- `CanPacket.__init__` (source lines 27-96): start from the all-`None`
state, run `set_address_information`, then `set_packet_data`; the
outcome accumulates the warnings of both calls and stops at the first
error. -/
def mkCanPacket (addressing_format : CanAddressingFormat)
    (addressing_type : AddressingType)
    (can_id target_address source_address address_extension : Option Nat)
    (args : PacketDataArgs) : SetOutcome :=
  match CanPacketS.initial.set_address_information addressing_format addressing_type
      can_id target_address source_address address_extension with
  | ⟨q, w, none⟩ =>
    match q.set_packet_data args with
    | ⟨q2, w2, e2⟩ => ⟨q2, w ++ w2, e2⟩
  | o => o

/-- `CanPacket.payload` (source lines 557-584): dispatch on the current
packet type to the per-kind payload decoder; `None` for Flow Control.
The attribute reads of `addressing_format` and `raw_frame_data` require
the object to be constructed (they are never `None` afterwards). -/
def CanPacketS.payload (p : CanPacketS) : Option (List Nat) :=
  match p.packet_type, p.addressing_format, p.raw_frame_data with
  | some .SINGLE_FRAME, some fmt, some rfd => CanSingleFrameHandler.decode_payload fmt rfd
  | some .FIRST_FRAME, some fmt, some rfd => CanFirstFrameHandler.decode_payload fmt rfd
  | some .CONSECUTIVE_FRAME, some fmt, some rfd =>
    CanConsecutiveFrameHandler.decode_payload fmt rfd
  | _, _, _ => none

/-- `CanPacket.data_length` (source lines 586-605). -/
def CanPacketS.data_length (p : CanPacketS) : Option Nat :=
  match p.packet_type, p.addressing_format, p.raw_frame_data with
  | some .SINGLE_FRAME, some fmt, some rfd => CanSingleFrameHandler.decode_sf_dl fmt rfd
  | some .FIRST_FRAME, some fmt, some rfd => CanFirstFrameHandler.decode_ff_dl fmt rfd
  | _, _, _ => none

/-- `CanPacket.sequence_number` (source lines 607-620). -/
def CanPacketS.sequence_number (p : CanPacketS) : Option Nat :=
  match p.packet_type, p.addressing_format, p.raw_frame_data with
  | some .CONSECUTIVE_FRAME, some fmt, some rfd =>
    CanConsecutiveFrameHandler.decode_sequence_number fmt rfd
  | _, _, _ => none

/-- `CanPacket.flow_status` (source lines 622-635). -/
def CanPacketS.flow_status (p : CanPacketS) : Option Nat :=
  match p.packet_type, p.addressing_format, p.raw_frame_data with
  | some .FLOW_CONTROL, some fmt, some rfd => CanFlowControlHandler.decode_flow_status fmt rfd
  | _, _, _ => none

/-- `CanPacket.block_size` (source lines 637-650). -/
def CanPacketS.block_size (p : CanPacketS) : Option Nat :=
  match p.packet_type, p.addressing_format, p.raw_frame_data with
  | some .FLOW_CONTROL, some fmt, some rfd => CanFlowControlHandler.decode_block_size fmt rfd
  | _, _, _ => none

/-- `CanPacket.st_min` (source lines 652-665). -/
def CanPacketS.st_min (p : CanPacketS) : Option Nat :=
  match p.packet_type, p.addressing_format, p.raw_frame_data with
  | some .FLOW_CONTROL, some fmt, some rfd => CanFlowControlHandler.decode_st_min fmt rfd
  | _, _, _ => none

/-- Consistency of the addressing attributes of a constructed
`CanPacket` with its addressing format (spec section 3, invariants 2
and 7 and the per-format field table). -/
def AiFieldsWf (fmt : CanAddressingFormat) (typ : AddressingType) (cid : Nat)
    (ta sa ae : Option Nat) : Prop :=
  match fmt with
  | .NORMAL_11BIT_ADDRESSING => cid < 2 ^ 11 ∧ ta = none ∧ sa = none ∧ ae = none
  | .NORMAL_FIXED_ADDRESSING => ae = none ∧ ∃ t s, t < 256 ∧ s < 256 ∧
      ta = some t ∧ sa = some s ∧
      cid = CanIdHandler.encode_normal_fixed_addressed_can_id typ t s
  | .EXTENDED_ADDRESSING => sa = none ∧ ae = none ∧ cid < 2 ^ 29 ∧
      ∃ t, t < 256 ∧ ta = some t
  | .MIXED_11BIT_ADDRESSING => ta = none ∧ sa = none ∧ cid < 2 ^ 11 ∧
      ∃ a, a < 256 ∧ ae = some a
  | .MIXED_29BIT_ADDRESSING => ∃ t s a, t < 256 ∧ s < 256 ∧ a < 256 ∧
      ta = some t ∧ sa = some s ∧ ae = some a ∧
      cid = CanIdHandler.encode_mixed_addressed_29bit_can_id typ t s

/-- The addressing attributes of the state are set and consistent. -/
def CanPacketS.AddrOk (p : CanPacketS) : Prop :=
  ∃ fmt typ cid, p.addressing_format = some fmt ∧ p.addressing_type = some typ ∧
    p.can_id = some cid ∧
    AiFieldsWf fmt typ cid p.target_address p.source_address p.address_extension

/-- The per-kind decoders succeed on the stored frame of a constructed
packet (spec failure semantics: decoders fail only on raw bytes that
cannot be parsed, which a validated constructor never stores). -/
def FrameDecodeWf (fmt : CanAddressingFormat) :
    CanPacketType → List Nat → Prop
  | .SINGLE_FRAME, rfd =>
    (CanSingleFrameHandler.decode_payload fmt rfd).isSome = true ∧
    (CanSingleFrameHandler.decode_sf_dl fmt rfd).isSome = true
  | .FIRST_FRAME, rfd =>
    (CanFirstFrameHandler.decode_payload fmt rfd).isSome = true ∧
    (CanFirstFrameHandler.decode_ff_dl fmt rfd).isSome = true
  | .CONSECUTIVE_FRAME, rfd =>
    (CanConsecutiveFrameHandler.decode_payload fmt rfd).isSome = true ∧
    (CanConsecutiveFrameHandler.decode_sequence_number fmt rfd).isSome = true
  | .FLOW_CONTROL, rfd =>
    (CanFlowControlHandler.decode_flow_status fmt rfd).isSome = true ∧
    (CanFlowControlHandler.decode_block_size fmt rfd).isSome = true ∧
    (CanFlowControlHandler.decode_st_min fmt rfd).isSome = true

/-- Well-formedness of a fully constructed `CanPacket` (spec section 3,
invariants 1-3 plus decodability of the stored frame). -/
def CanPacketS.Wf (p : CanPacketS) : Prop :=
  ∃ fmt typ cid d pt rfd,
    p.addressing_format = some fmt ∧ p.addressing_type = some typ ∧
    p.can_id = some cid ∧ p.dlc = some d ∧ p.packet_type = some pt ∧
    p.raw_frame_data = some rfd ∧
    AiFieldsWf fmt typ cid p.target_address p.source_address p.address_extension ∧
    d ≤ 15 ∧ rfd.length = CanDlcHandler.decode_dlc d ∧
    CanAddressingInformationHandler.get_ai_data_bytes_number fmt < rfd.length ∧
    (∃ ai, CanAddressingInformationHandler.encode_ai_data_bytes fmt
        p.target_address p.address_extension = .ok ai ∧
      rfd.take (CanAddressingInformationHandler.get_ai_data_bytes_number fmt) = ai) ∧
    FrameDecodeWf fmt pt rfd

theorem CanPacketS.Wf.addrOk {p : CanPacketS} (h : p.Wf) : p.AddrOk := by
  obtain ⟨fmt, typ, cid, d, pt, rfd, h1, h2, h3, _, _, _, h7, _⟩ := h
  exact ⟨fmt, typ, cid, h1, h2, h3, h7⟩

theorem CanIdHandler.decode_normal_fixed_eq {c : Nat} {typ : AddressingType} {t s : Nat}
    (h : CanIdHandler.decode_normal_fixed_addressed_can_id c = some (typ, t, s)) :
    t < 256 ∧ s < 256 ∧ c = CanIdHandler.encode_normal_fixed_addressed_can_id typ t s := by
  unfold CanIdHandler.decode_normal_fixed_addressed_can_id at h
  split_ifs at h with h1 h2
  · simp only [Option.some.injEq, Prod.mk.injEq] at h
    obtain ⟨h0, ht, hs⟩ := h
    subst h0; subst ht; subst hs
    refine ⟨by omega, by omega, ?_⟩
    simp only [CanIdHandler.encode_normal_fixed_addressed_can_id]
    omega
  · simp only [Option.some.injEq, Prod.mk.injEq] at h
    obtain ⟨h0, ht, hs⟩ := h
    subst h0; subst ht; subst hs
    refine ⟨by omega, by omega, ?_⟩
    simp only [CanIdHandler.encode_normal_fixed_addressed_can_id]
    omega

theorem CanIdHandler.decode_mixed_29bit_eq {c : Nat} {typ : AddressingType} {t s : Nat}
    (h : CanIdHandler.decode_mixed_addressed_29bit_can_id c = some (typ, t, s)) :
    t < 256 ∧ s < 256 ∧ c = CanIdHandler.encode_mixed_addressed_29bit_can_id typ t s := by
  unfold CanIdHandler.decode_mixed_addressed_29bit_can_id at h
  split_ifs at h with h1 h2
  · simp only [Option.some.injEq, Prod.mk.injEq] at h
    obtain ⟨h0, ht, hs⟩ := h
    subst h0; subst ht; subst hs
    refine ⟨by omega, by omega, ?_⟩
    simp only [CanIdHandler.encode_mixed_addressed_29bit_can_id]
    omega
  · simp only [Option.some.injEq, Prod.mk.injEq] at h
    obtain ⟨h0, ht, hs⟩ := h
    subst h0; subst ht; subst hs
    refine ⟨by omega, by omega, ?_⟩
    simp only [CanIdHandler.encode_mixed_addressed_29bit_can_id]
    omega

theorem CanAddressingInformationHandler.validate_ai_normal_11bit_ok
    {typ : AddressingType} {cid : Option Nat}
    (h : CanAddressingInformationHandler.validate_ai_normal_11bit typ cid = .ok ()) :
    ∃ c, cid = some c ∧ c < 2 ^ 11 := by
  unfold CanAddressingInformationHandler.validate_ai_normal_11bit at h
  cases cid with
  | none => exact (Except.noConfusion h)
  | some c =>
    dsimp only at h
    split_ifs at h with hc
    exact ⟨c, rfl, hc⟩

theorem CanAddressingInformationHandler.validate_ai_extended_ok
    {typ : AddressingType} {cid ta : Option Nat}
    (h : CanAddressingInformationHandler.validate_ai_extended typ cid ta = .ok ()) :
    ∃ c t, cid = some c ∧ ta = some t ∧ c < 2 ^ 29 ∧ t < 256 := by
  unfold CanAddressingInformationHandler.validate_ai_extended at h
  cases cid with
  | none => exact (Except.noConfusion h)
  | some c =>
    cases ta with
    | none => exact (Except.noConfusion h)
    | some t =>
      dsimp only at h
      split_ifs at h with hc
      exact ⟨c, t, rfl, rfl, hc.1, hc.2⟩

theorem CanAddressingInformationHandler.validate_ai_mixed_11bit_ok
    {typ : AddressingType} {cid ae : Option Nat}
    (h : CanAddressingInformationHandler.validate_ai_mixed_11bit typ cid ae = .ok ()) :
    ∃ c a, cid = some c ∧ ae = some a ∧ c < 2 ^ 11 ∧ a < 256 := by
  unfold CanAddressingInformationHandler.validate_ai_mixed_11bit at h
  cases cid with
  | none => exact (Except.noConfusion h)
  | some c =>
    cases ae with
    | none => exact (Except.noConfusion h)
    | some a =>
      dsimp only at h
      split_ifs at h with hc
      exact ⟨c, a, rfl, rfl, hc.1, hc.2⟩

theorem CanAddressingInformationHandler.validate_ai_normal_fixed_ok
    {typ : AddressingType} {cid ta sa : Option Nat}
    (h : CanAddressingInformationHandler.validate_ai_normal_fixed typ cid ta sa = .ok ()) :
    (cid = none ∧ ∃ t s, ta = some t ∧ sa = some s ∧ t < 256 ∧ s < 256) ∨
    (∃ c t s, cid = some c ∧
      CanIdHandler.decode_normal_fixed_addressed_can_id c = some (typ, t, s) ∧
      (ta = none ∨ ta = some t) ∧ (sa = none ∨ sa = some s)) := by
  unfold CanAddressingInformationHandler.validate_ai_normal_fixed at h
  cases cid with
  | none =>
    dsimp only at h
    cases hta : ta with
    | none => rw [hta] at h; exact (Except.noConfusion h)
    | some t =>
      cases hsa : sa with
      | none => rw [hta, hsa] at h; exact (Except.noConfusion h)
      | some s =>
        rw [hta, hsa] at h
        dsimp only at h
        split_ifs at h with hc
        exact Or.inl ⟨rfl, t, s, rfl, rfl, hc.1, hc.2⟩
  | some c =>
    dsimp only at h
    cases hdec : CanIdHandler.decode_normal_fixed_addressed_can_id c with
    | none => rw [hdec] at h; exact (Except.noConfusion h)
    | some i =>
      obtain ⟨typ0, t, s⟩ := i
      rw [hdec] at h
      dsimp only at h
      split_ifs at h with h1 h2 h3
      refine Or.inr ⟨c, t, s, rfl, ?_, ?_, ?_⟩
      · rw [hdec]
        simp only [ne_eq, not_not] at h1
        rw [h1]
      · by_cases hta : ta = none
        · exact Or.inl hta
        · right
          by_contra hne
          exact h2 ⟨hta, hne⟩
      · by_cases hsa : sa = none
        · exact Or.inl hsa
        · right
          by_contra hne
          exact h3 ⟨hsa, hne⟩

theorem CanAddressingInformationHandler.validate_ai_mixed_29bit_ok
    {typ : AddressingType} {cid ta sa ae : Option Nat}
    (h : CanAddressingInformationHandler.validate_ai_mixed_29bit typ cid ta sa ae = .ok ()) :
    ∃ a, ae = some a ∧ a < 256 ∧
    ((cid = none ∧ ∃ t s, ta = some t ∧ sa = some s ∧ t < 256 ∧ s < 256) ∨
     (∃ c t s, cid = some c ∧
       CanIdHandler.decode_mixed_addressed_29bit_can_id c = some (typ, t, s) ∧
       (ta = none ∨ ta = some t) ∧ (sa = none ∨ sa = some s))) := by
  unfold CanAddressingInformationHandler.validate_ai_mixed_29bit at h
  cases ae with
  | none => exact (Except.noConfusion h)
  | some a =>
  dsimp only at h
  split_ifs at h with ha
  refine ⟨a, rfl, ha, ?_⟩
  cases cid with
  | none =>
    dsimp only at h
    cases hta : ta with
    | none => rw [hta] at h; exact (Except.noConfusion h)
    | some t =>
      cases hsa : sa with
      | none => rw [hta, hsa] at h; exact (Except.noConfusion h)
      | some s =>
        rw [hta, hsa] at h
        dsimp only at h
        split_ifs at h with hc
        exact Or.inl ⟨rfl, t, s, rfl, rfl, hc.1, hc.2⟩
  | some c =>
    dsimp only at h
    cases hdec : CanIdHandler.decode_mixed_addressed_29bit_can_id c with
    | none => rw [hdec] at h; exact (Except.noConfusion h)
    | some i =>
      obtain ⟨typ0, t, s⟩ := i
      rw [hdec] at h
      dsimp only at h
      split_ifs at h with h1 h2 h3
      refine Or.inr ⟨c, t, s, rfl, ?_, ?_, ?_⟩
      · rw [hdec]
        simp only [ne_eq, not_not] at h1
        rw [h1]
      · by_cases hta : ta = none
        · exact Or.inl hta
        · right
          by_contra hne
          exact h2 ⟨hta, hne⟩
      · by_cases hsa : sa = none
        · exact Or.inl hsa
        · right
          by_contra hne
          exact h3 ⟨hsa, hne⟩

theorem CanPacketS.unamb_ok {p : CanPacketS} {fmt' : CanAddressingFormat}
    (hml : ∀ f0, p.addressing_format = some f0 →
      CanAddressingInformationHandler.get_ai_data_bytes_number fmt' =
        CanAddressingInformationHandler.get_ai_data_bytes_number f0) :
    p.validate_unambiguous_ai_change fmt' = .ok () := by
  unfold CanPacketS.validate_unambiguous_ai_change
  cases hf : p.addressing_format with
  | none => rfl
  | some f0 =>
    dsimp only
    rw [if_neg]
    simp [hml f0 hf]

theorem CanPacketS.ai11_ok {p : CanPacketS} {typ : AddressingType} {c : Nat}
    (hml : ∀ f0, p.addressing_format = some f0 →
      CanAddressingInformationHandler.get_ai_data_bytes_number
          CanAddressingFormat.NORMAL_11BIT_ADDRESSING =
        CanAddressingInformationHandler.get_ai_data_bytes_number f0)
    (hc : c < 2 ^ 11) :
    p.set_address_information_normal_11bit typ (some c) =
      ⟨{ p with
          addressing_format := some .NORMAL_11BIT_ADDRESSING
          addressing_type := some typ
          can_id := some c
          target_address := none
          source_address := none
          address_extension := none }, [], none⟩ := by
  have hu := CanPacketS.unamb_ok hml
  obtain ⟨r, aty, afm, pt, ci, dl, ta0, sa0, ae0⟩ := p
  unfold CanPacketS.set_address_information_normal_11bit
  rw [hu]
  have hv : CanAddressingInformationHandler.validate_ai_normal_11bit typ (some c) =
      .ok () := by
    unfold CanAddressingInformationHandler.validate_ai_normal_11bit
    dsimp only
    rw [if_pos hc]
  rw [hv]
  unfold CanPacketS.update_ai_data_byte
  cases r with
  | none => rfl
  | some rfd =>
    simp [CanAddressingInformationHandler.encode_ai_data_bytes]

theorem CanPacketS.aiExt_ok {p : CanPacketS} {typ : AddressingType} {c t : Nat}
    (hml : ∀ f0, p.addressing_format = some f0 →
      CanAddressingInformationHandler.get_ai_data_bytes_number
          CanAddressingFormat.EXTENDED_ADDRESSING =
        CanAddressingInformationHandler.get_ai_data_bytes_number f0)
    (hc : c < 2 ^ 29) (ht : t < 256) :
    p.set_address_information_extended typ (some c) (some t) =
      ⟨{ p with
          addressing_format := some .EXTENDED_ADDRESSING
          addressing_type := some typ
          can_id := some c
          target_address := some t
          source_address := none
          address_extension := none
          raw_frame_data := p.raw_frame_data.map fun rfd => t :: rfd.drop 1 },
        [], none⟩ := by
  have hu := CanPacketS.unamb_ok hml
  obtain ⟨r, aty, afm, pt, ci, dl, ta0, sa0, ae0⟩ := p
  unfold CanPacketS.set_address_information_extended
  rw [hu]
  have hv : CanAddressingInformationHandler.validate_ai_extended typ (some c) (some t) =
      .ok () := by
    unfold CanAddressingInformationHandler.validate_ai_extended
    dsimp only
    rw [if_pos (show c < 2 ^ 29 ∧ t < 256 from ⟨hc, ht⟩)]
  rw [hv]
  unfold CanPacketS.update_ai_data_byte
  cases r with
  | none => rfl
  | some rfd =>
    simp [CanAddressingInformationHandler.encode_ai_data_bytes, ht]

theorem CanPacketS.aiM11_ok {p : CanPacketS} {typ : AddressingType} {c a : Nat}
    (hml : ∀ f0, p.addressing_format = some f0 →
      CanAddressingInformationHandler.get_ai_data_bytes_number
          CanAddressingFormat.MIXED_11BIT_ADDRESSING =
        CanAddressingInformationHandler.get_ai_data_bytes_number f0)
    (hc : c < 2 ^ 11) (ha : a < 256) :
    p.set_address_information_mixed_11bit typ (some c) (some a) =
      ⟨{ p with
          addressing_format := some .MIXED_11BIT_ADDRESSING
          addressing_type := some typ
          can_id := some c
          target_address := none
          source_address := none
          address_extension := some a
          raw_frame_data := p.raw_frame_data.map fun rfd => a :: rfd.drop 1 },
        [], none⟩ := by
  have hu := CanPacketS.unamb_ok hml
  obtain ⟨r, aty, afm, pt, ci, dl, ta0, sa0, ae0⟩ := p
  unfold CanPacketS.set_address_information_mixed_11bit
  rw [hu]
  have hv : CanAddressingInformationHandler.validate_ai_mixed_11bit typ (some c) (some a) =
      .ok () := by
    unfold CanAddressingInformationHandler.validate_ai_mixed_11bit
    dsimp only
    rw [if_pos (show c < 2 ^ 11 ∧ a < 256 from ⟨hc, ha⟩)]
  rw [hv]
  unfold CanPacketS.update_ai_data_byte
  cases r with
  | none => rfl
  | some rfd =>
    simp [CanAddressingInformationHandler.encode_ai_data_bytes, ha]

theorem CanPacketS.aiNF_ok_cid {p : CanPacketS} {typ : AddressingType} {c t s : Nat}
    {taArg saArg : Option Nat}
    (hml : ∀ f0, p.addressing_format = some f0 →
      CanAddressingInformationHandler.get_ai_data_bytes_number
          CanAddressingFormat.NORMAL_FIXED_ADDRESSING =
        CanAddressingInformationHandler.get_ai_data_bytes_number f0)
    (hdec : CanIdHandler.decode_normal_fixed_addressed_can_id c = some (typ, t, s))
    (hta : taArg = none ∨ taArg = some t) (hsa : saArg = none ∨ saArg = some s) :
    p.set_address_information_normal_fixed typ (some c) taArg saArg =
      ⟨{ p with
          addressing_format := some .NORMAL_FIXED_ADDRESSING
          addressing_type := some typ
          can_id := some c
          target_address := some t
          source_address := some s
          address_extension := none }, [], none⟩ := by
  have hu := CanPacketS.unamb_ok hml
  have hv : CanAddressingInformationHandler.validate_ai_normal_fixed typ (some c)
      taArg saArg = .ok () := by
    unfold CanAddressingInformationHandler.validate_ai_normal_fixed
    dsimp only
    rw [hdec]
    dsimp only
    rw [if_neg (by simp)]
    rw [if_neg (by rcases hta with h | h <;> simp [h])]
    rw [if_neg (by rcases hsa with h | h <;> simp [h])]
  obtain ⟨r, aty, afm, pt, ci, dl, ta0, sa0, ae0⟩ := p
  unfold CanPacketS.set_address_information_normal_fixed
  rw [hv, hu]
  dsimp only
  rw [hdec]
  unfold CanPacketS.update_ai_data_byte
  cases r with
  | none => rfl
  | some rfd =>
    simp [CanAddressingInformationHandler.encode_ai_data_bytes]

theorem CanPacketS.aiNF_ok_tasa {p : CanPacketS} {typ : AddressingType} {t s : Nat}
    (hml : ∀ f0, p.addressing_format = some f0 →
      CanAddressingInformationHandler.get_ai_data_bytes_number
          CanAddressingFormat.NORMAL_FIXED_ADDRESSING =
        CanAddressingInformationHandler.get_ai_data_bytes_number f0)
    (ht : t < 256) (hs : s < 256) :
    p.set_address_information_normal_fixed typ none (some t) (some s) =
      ⟨{ p with
          addressing_format := some .NORMAL_FIXED_ADDRESSING
          addressing_type := some typ
          can_id := some (CanIdHandler.encode_normal_fixed_addressed_can_id typ t s)
          target_address := some t
          source_address := some s
          address_extension := none }, [], none⟩ := by
  have hu := CanPacketS.unamb_ok hml
  have hv : CanAddressingInformationHandler.validate_ai_normal_fixed typ none
      (some t) (some s) = .ok () := by
    unfold CanAddressingInformationHandler.validate_ai_normal_fixed
    dsimp only
    rw [if_pos ⟨ht, hs⟩]
  obtain ⟨r, aty, afm, pt, ci, dl, ta0, sa0, ae0⟩ := p
  unfold CanPacketS.set_address_information_normal_fixed
  rw [hv, hu]
  dsimp only
  unfold CanPacketS.update_ai_data_byte
  cases r with
  | none => rfl
  | some rfd =>
    simp [CanAddressingInformationHandler.encode_ai_data_bytes]

theorem CanPacketS.aiM29_ok_cid {p : CanPacketS} {typ : AddressingType} {c t s a : Nat}
    {taArg saArg : Option Nat}
    (hml : ∀ f0, p.addressing_format = some f0 →
      CanAddressingInformationHandler.get_ai_data_bytes_number
          CanAddressingFormat.MIXED_29BIT_ADDRESSING =
        CanAddressingInformationHandler.get_ai_data_bytes_number f0)
    (hdec : CanIdHandler.decode_mixed_addressed_29bit_can_id c = some (typ, t, s))
    (ha : a < 256)
    (hta : taArg = none ∨ taArg = some t) (hsa : saArg = none ∨ saArg = some s) :
    p.set_address_information_mixed_29bit typ (some a) (some c) taArg saArg =
      ⟨{ p with
          addressing_format := some .MIXED_29BIT_ADDRESSING
          addressing_type := some typ
          can_id := some c
          target_address := some t
          source_address := some s
          address_extension := some a
          raw_frame_data := p.raw_frame_data.map fun rfd => a :: rfd.drop 1 },
        [], none⟩ := by
  have hu := CanPacketS.unamb_ok hml
  have hv : CanAddressingInformationHandler.validate_ai_mixed_29bit typ (some c)
      taArg saArg (some a) = .ok () := by
    unfold CanAddressingInformationHandler.validate_ai_mixed_29bit
    dsimp only
    rw [if_pos ha]
    rw [hdec]
    dsimp only
    rw [if_neg (by simp)]
    rw [if_neg (by rcases hta with h | h <;> simp [h])]
    rw [if_neg (by rcases hsa with h | h <;> simp [h])]
  obtain ⟨r, aty, afm, pt, ci, dl, ta0, sa0, ae0⟩ := p
  unfold CanPacketS.set_address_information_mixed_29bit
  rw [hv, hu]
  dsimp only
  rw [hdec]
  unfold CanPacketS.update_ai_data_byte
  cases r with
  | none => rfl
  | some rfd =>
    simp [CanAddressingInformationHandler.encode_ai_data_bytes, ha]

theorem CanPacketS.aiM29_ok_tasa {p : CanPacketS} {typ : AddressingType} {t s a : Nat}
    (hml : ∀ f0, p.addressing_format = some f0 →
      CanAddressingInformationHandler.get_ai_data_bytes_number
          CanAddressingFormat.MIXED_29BIT_ADDRESSING =
        CanAddressingInformationHandler.get_ai_data_bytes_number f0)
    (ht : t < 256) (hs : s < 256) (ha : a < 256) :
    p.set_address_information_mixed_29bit typ (some a) none (some t) (some s) =
      ⟨{ p with
          addressing_format := some .MIXED_29BIT_ADDRESSING
          addressing_type := some typ
          can_id := some (CanIdHandler.encode_mixed_addressed_29bit_can_id typ t s)
          target_address := some t
          source_address := some s
          address_extension := some a
          raw_frame_data := p.raw_frame_data.map fun rfd => a :: rfd.drop 1 },
        [], none⟩ := by
  have hu := CanPacketS.unamb_ok hml
  have hv : CanAddressingInformationHandler.validate_ai_mixed_29bit typ none
      (some t) (some s) (some a) = .ok () := by
    unfold CanAddressingInformationHandler.validate_ai_mixed_29bit
    dsimp only
    rw [if_pos ha]
    rw [if_pos ⟨ht, hs⟩]
  obtain ⟨r, aty, afm, pt, ci, dl, ta0, sa0, ae0⟩ := p
  unfold CanPacketS.set_address_information_mixed_29bit
  rw [hv, hu]
  dsimp only
  unfold CanPacketS.update_ai_data_byte
  cases r with
  | none => rfl
  | some rfd =>
    simp [CanAddressingInformationHandler.encode_ai_data_bytes, ha]

/-- The per-format argument validation performed at the start of the
per-format setter that `CanPacket.set_address_information` dispatches
to (source lines 128-169 together with lines 171-311). -/
def validateAiFor (fmt : CanAddressingFormat) (typ : AddressingType)
    (cid ta sa ae : Option Nat) : Except UdsErr Unit :=
  match fmt with
  | .NORMAL_11BIT_ADDRESSING =>
    CanAddressingInformationHandler.validate_ai_normal_11bit typ cid
  | .NORMAL_FIXED_ADDRESSING =>
    CanAddressingInformationHandler.validate_ai_normal_fixed typ cid ta sa
  | .EXTENDED_ADDRESSING =>
    CanAddressingInformationHandler.validate_ai_extended typ cid ta
  | .MIXED_11BIT_ADDRESSING =>
    CanAddressingInformationHandler.validate_ai_mixed_11bit typ cid ae
  | .MIXED_29BIT_ADDRESSING =>
    CanAddressingInformationHandler.validate_ai_mixed_29bit typ cid ta sa ae

/-- The `UnusedArgumentWarning` list a successful
`CanPacket.set_address_information` call emits for each addressing
format (source lines 128-169): one warning naming the supplied
parameters the format does not use, or nothing when none were
supplied. -/
def unusedWarnList (fmt : CanAddressingFormat) (ta sa ae : Option Nat) : List UdsWarning :=
  match fmt with
  | .NORMAL_11BIT_ADDRESSING =>
    if ta ≠ none ∨ sa ≠ none ∨ ae ≠ none then [.unusedArguments ta sa ae] else []
  | .NORMAL_FIXED_ADDRESSING =>
    if ae ≠ none then [.unusedArguments none none ae] else []
  | .EXTENDED_ADDRESSING =>
    if sa ≠ none ∨ ae ≠ none then [.unusedArguments none sa ae] else []
  | .MIXED_11BIT_ADDRESSING =>
    if ta ≠ none ∨ sa ≠ none then [.unusedArguments ta sa none] else []
  | .MIXED_29BIT_ADDRESSING => []

theorem CanPacketS.setai_ok_anatomy {p : CanPacketS} {fmt' : CanAddressingFormat}
    {typ : AddressingType} {cid ta sa ae : Option Nat}
    (hv : validateAiFor fmt' typ cid ta sa ae = .ok ())
    (hml : ∀ f0, p.addressing_format = some f0 →
      CanAddressingInformationHandler.get_ai_data_bytes_number fmt' =
        CanAddressingInformationHandler.get_ai_data_bytes_number f0) :
    ∃ cid' ta' sa' ae' hd,
      p.set_address_information fmt' typ cid ta sa ae =
        ⟨{ p with
            addressing_format := some fmt'
            addressing_type := some typ
            can_id := some cid'
            target_address := ta'
            source_address := sa'
            address_extension := ae'
            raw_frame_data := p.raw_frame_data.map fun rfd => hd ++ rfd.drop hd.length },
          unusedWarnList fmt' ta sa ae, none⟩ ∧
      AiFieldsWf fmt' typ cid' ta' sa' ae' ∧
      CanAddressingInformationHandler.encode_ai_data_bytes fmt' ta' ae' = .ok hd ∧
      hd.length = CanAddressingInformationHandler.get_ai_data_bytes_number fmt' := by
  cases fmt' with
  | NORMAL_11BIT_ADDRESSING =>
    simp only [validateAiFor] at hv
    obtain ⟨c, rfl, hc⟩ := CanAddressingInformationHandler.validate_ai_normal_11bit_ok hv
    refine ⟨c, none, none, none, [], ?_, ⟨hc, rfl, rfl, rfl⟩, rfl, rfl⟩
    have heq := @CanPacketS.ai11_ok p typ c hml hc
    unfold CanPacketS.set_address_information
    rw [heq]
    unfold unusedWarnList
    obtain ⟨r, aty, afm, pt, ci, dl, ta0, sa0, ae0⟩ := p
    cases r with
    | none => split_ifs with hw <;> rfl
    | some rfd => split_ifs with hw <;> rfl
  | NORMAL_FIXED_ADDRESSING =>
    simp only [validateAiFor] at hv
    rcases CanAddressingInformationHandler.validate_ai_normal_fixed_ok hv with
      ⟨rfl, t, s, rfl, rfl, ht, hs⟩ | ⟨c, t, s, rfl, hdec, hta, hsa⟩
    · refine ⟨CanIdHandler.encode_normal_fixed_addressed_can_id typ t s,
        some t, some s, none, [], ?_, ⟨rfl, t, s, ht, hs, rfl, rfl, rfl⟩, rfl, rfl⟩
      have heq := @CanPacketS.aiNF_ok_tasa p typ t s hml ht hs
      unfold CanPacketS.set_address_information
      rw [heq]
      unfold unusedWarnList
      obtain ⟨r, aty, afm, pt, ci, dl, ta0, sa0, ae0⟩ := p
      cases r with
      | none => split_ifs with hw <;> rfl
      | some rfd => split_ifs with hw <;> rfl
    · obtain ⟨ht, hs, hceq⟩ := CanIdHandler.decode_normal_fixed_eq hdec
      refine ⟨c, some t, some s, none, [], ?_,
        ⟨rfl, t, s, ht, hs, rfl, rfl, hceq⟩, rfl, rfl⟩
      have heq := CanPacketS.aiNF_ok_cid hml hdec hta hsa
      unfold CanPacketS.set_address_information
      rw [heq]
      unfold unusedWarnList
      obtain ⟨r, aty, afm, pt, ci, dl, ta0, sa0, ae0⟩ := p
      cases r with
      | none => split_ifs with hw <;> rfl
      | some rfd => split_ifs with hw <;> rfl
  | EXTENDED_ADDRESSING =>
    simp only [validateAiFor] at hv
    obtain ⟨c, t, rfl, rfl, hc, ht⟩ :=
      CanAddressingInformationHandler.validate_ai_extended_ok hv
    refine ⟨c, some t, none, none, [t], ?_, ⟨rfl, rfl, hc, t, ht, rfl⟩, ?_, rfl⟩
    · have heq := @CanPacketS.aiExt_ok p typ c t hml hc ht
      unfold CanPacketS.set_address_information
      rw [heq]
      unfold unusedWarnList
      obtain ⟨r, aty, afm, pt, ci, dl, ta0, sa0, ae0⟩ := p
      cases r with
      | none => split_ifs with hw <;> rfl
      | some rfd => split_ifs with hw <;> rfl
    · unfold CanAddressingInformationHandler.encode_ai_data_bytes
      dsimp only
      rw [if_pos ht]
  | MIXED_11BIT_ADDRESSING =>
    simp only [validateAiFor] at hv
    obtain ⟨c, a, rfl, rfl, hc, ha⟩ :=
      CanAddressingInformationHandler.validate_ai_mixed_11bit_ok hv
    refine ⟨c, none, none, some a, [a], ?_, ⟨rfl, rfl, hc, a, ha, rfl⟩, ?_, rfl⟩
    · have heq := @CanPacketS.aiM11_ok p typ c a hml hc ha
      unfold CanPacketS.set_address_information
      rw [heq]
      unfold unusedWarnList
      obtain ⟨r, aty, afm, pt, ci, dl, ta0, sa0, ae0⟩ := p
      cases r with
      | none => split_ifs with hw <;> rfl
      | some rfd => split_ifs with hw <;> rfl
    · unfold CanAddressingInformationHandler.encode_ai_data_bytes
      dsimp only
      rw [if_pos ha]
  | MIXED_29BIT_ADDRESSING =>
    simp only [validateAiFor] at hv
    obtain ⟨a, rfl, ha, hrest⟩ :=
      CanAddressingInformationHandler.validate_ai_mixed_29bit_ok hv
    rcases hrest with ⟨rfl, t, s, rfl, rfl, ht, hs⟩ | ⟨c, t, s, rfl, hdec, hta, hsa⟩
    · refine ⟨CanIdHandler.encode_mixed_addressed_29bit_can_id typ t s,
        some t, some s, some a, [a], ?_,
        ⟨t, s, a, ht, hs, ha, rfl, rfl, rfl, rfl⟩, ?_, rfl⟩
      · have heq := @CanPacketS.aiM29_ok_tasa p typ t s a hml ht hs ha
        unfold CanPacketS.set_address_information
        rw [heq]
        unfold unusedWarnList
        obtain ⟨r, aty, afm, pt, ci, dl, ta0, sa0, ae0⟩ := p
        cases r with
        | none => rfl
        | some rfd => rfl
      · unfold CanAddressingInformationHandler.encode_ai_data_bytes
        dsimp only
        rw [if_pos ha]
    · obtain ⟨ht, hs, hceq⟩ := CanIdHandler.decode_mixed_29bit_eq hdec
      refine ⟨c, some t, some s, some a, [a], ?_,
        ⟨t, s, a, ht, hs, ha, rfl, rfl, rfl, hceq⟩, ?_, rfl⟩
      · have heq := CanPacketS.aiM29_ok_cid hml hdec ha hta hsa
        unfold CanPacketS.set_address_information
        rw [heq]
        unfold unusedWarnList
        obtain ⟨r, aty, afm, pt, ci, dl, ta0, sa0, ae0⟩ := p
        cases r with
        | none => rfl
        | some rfd => rfl
      · unfold CanAddressingInformationHandler.encode_ai_data_bytes
        dsimp only
        rw [if_pos ha]

theorem CanPacketS.setai_ambiguous {p : CanPacketS} {fmt' : CanAddressingFormat}
    {typ : AddressingType} {cid ta sa ae : Option Nat} {f0 : CanAddressingFormat}
    (hf : p.addressing_format = some f0)
    (hv : validateAiFor fmt' typ cid ta sa ae = .ok ())
    (hne : CanAddressingInformationHandler.get_ai_data_bytes_number fmt' ≠
      CanAddressingInformationHandler.get_ai_data_bytes_number f0) :
    p.set_address_information fmt' typ cid ta sa ae = ⟨p, [], some .ambiguity⟩ := by
  have hu : p.validate_unambiguous_ai_change fmt' = .error .ambiguity := by
    unfold CanPacketS.validate_unambiguous_ai_change
    rw [hf]
    dsimp only
    rw [if_pos hne]
  cases fmt' <;> simp only [validateAiFor] at hv
  · unfold CanPacketS.set_address_information
      CanPacketS.set_address_information_normal_11bit
    rw [hv, hu]
  · unfold CanPacketS.set_address_information
      CanPacketS.set_address_information_normal_fixed
    rw [hv, hu]
  · unfold CanPacketS.set_address_information
      CanPacketS.set_address_information_extended
    rw [hv, hu]
  · unfold CanPacketS.set_address_information
      CanPacketS.set_address_information_mixed_11bit
    rw [hv, hu]
  · unfold CanPacketS.set_address_information
      CanPacketS.set_address_information_mixed_29bit
    rw [hv, hu]

theorem CanPacketS.unamb_inv {p : CanPacketS} {fmt' : CanAddressingFormat}
    (h : p.validate_unambiguous_ai_change fmt' = .ok ()) :
    ∀ f0, p.addressing_format = some f0 →
      CanAddressingInformationHandler.get_ai_data_bytes_number fmt' =
        CanAddressingInformationHandler.get_ai_data_bytes_number f0 := by
  intro f0 hf
  unfold CanPacketS.validate_unambiguous_ai_change at h
  rw [hf] at h
  dsimp only at h
  by_contra hne
  rw [if_pos hne] at h
  exact (Except.noConfusion h)

theorem CanPacketS.setai_ok_inv {p : CanPacketS} {fmt' : CanAddressingFormat}
    {typ : AddressingType} {cid ta sa ae : Option Nat}
    (he : (p.set_address_information fmt' typ cid ta sa ae).error = none) :
    validateAiFor fmt' typ cid ta sa ae = .ok () ∧
    (∀ f0, p.addressing_format = some f0 →
      CanAddressingInformationHandler.get_ai_data_bytes_number fmt' =
        CanAddressingInformationHandler.get_ai_data_bytes_number f0) := by
  cases fmt' with
  | NORMAL_11BIT_ADDRESSING =>
    unfold CanPacketS.set_address_information at he
    cases ho1 : p.set_address_information_normal_11bit typ cid with
    | mk q w e =>
      rw [ho1] at he
      cases e with
      | some err => dsimp only at he; exact (Option.noConfusion he)
      | none =>
        unfold CanPacketS.set_address_information_normal_11bit at ho1
        cases hval : CanAddressingInformationHandler.validate_ai_normal_11bit typ cid with
        | error err =>
          rw [hval] at ho1
          injection ho1 with h1 h2 h3
          exact (Option.noConfusion h3)
        | ok u =>
          cases u
          rw [hval] at ho1
          cases hval2 : p.validate_unambiguous_ai_change .NORMAL_11BIT_ADDRESSING with
          | error err =>
            rw [hval2] at ho1
            injection ho1 with h1 h2 h3
            exact (Option.noConfusion h3)
          | ok u =>
            cases u
            exact ⟨hval, CanPacketS.unamb_inv hval2⟩
  | NORMAL_FIXED_ADDRESSING =>
    unfold CanPacketS.set_address_information at he
    cases ho1 : p.set_address_information_normal_fixed typ cid ta sa with
    | mk q w e =>
      rw [ho1] at he
      cases e with
      | some err => dsimp only at he; exact (Option.noConfusion he)
      | none =>
        unfold CanPacketS.set_address_information_normal_fixed at ho1
        cases hval : CanAddressingInformationHandler.validate_ai_normal_fixed typ cid ta sa with
        | error err =>
          rw [hval] at ho1
          injection ho1 with h1 h2 h3
          exact (Option.noConfusion h3)
        | ok u =>
          cases u
          rw [hval] at ho1
          cases hval2 : p.validate_unambiguous_ai_change .NORMAL_FIXED_ADDRESSING with
          | error err =>
            rw [hval2] at ho1
            injection ho1 with h1 h2 h3
            exact (Option.noConfusion h3)
          | ok u =>
            cases u
            exact ⟨hval, CanPacketS.unamb_inv hval2⟩
  | EXTENDED_ADDRESSING =>
    unfold CanPacketS.set_address_information at he
    cases ho1 : p.set_address_information_extended typ cid ta with
    | mk q w e =>
      rw [ho1] at he
      cases e with
      | some err => dsimp only at he; exact (Option.noConfusion he)
      | none =>
        unfold CanPacketS.set_address_information_extended at ho1
        cases hval : CanAddressingInformationHandler.validate_ai_extended typ cid ta with
        | error err =>
          rw [hval] at ho1
          injection ho1 with h1 h2 h3
          exact (Option.noConfusion h3)
        | ok u =>
          cases u
          rw [hval] at ho1
          cases hval2 : p.validate_unambiguous_ai_change .EXTENDED_ADDRESSING with
          | error err =>
            rw [hval2] at ho1
            injection ho1 with h1 h2 h3
            exact (Option.noConfusion h3)
          | ok u =>
            cases u
            exact ⟨hval, CanPacketS.unamb_inv hval2⟩
  | MIXED_11BIT_ADDRESSING =>
    unfold CanPacketS.set_address_information at he
    cases ho1 : p.set_address_information_mixed_11bit typ cid ae with
    | mk q w e =>
      rw [ho1] at he
      cases e with
      | some err => dsimp only at he; exact (Option.noConfusion he)
      | none =>
        unfold CanPacketS.set_address_information_mixed_11bit at ho1
        cases hval : CanAddressingInformationHandler.validate_ai_mixed_11bit typ cid ae with
        | error err =>
          rw [hval] at ho1
          injection ho1 with h1 h2 h3
          exact (Option.noConfusion h3)
        | ok u =>
          cases u
          rw [hval] at ho1
          cases hval2 : p.validate_unambiguous_ai_change .MIXED_11BIT_ADDRESSING with
          | error err =>
            rw [hval2] at ho1
            injection ho1 with h1 h2 h3
            exact (Option.noConfusion h3)
          | ok u =>
            cases u
            exact ⟨hval, CanPacketS.unamb_inv hval2⟩
  | MIXED_29BIT_ADDRESSING =>
    unfold CanPacketS.set_address_information at he
    cases ho1 : p.set_address_information_mixed_29bit typ ae cid ta sa with
    | mk q w e =>
      rw [ho1] at he
      cases e with
      | some err => exact (Option.noConfusion he)
      | none =>
        unfold CanPacketS.set_address_information_mixed_29bit at ho1
        cases hval : CanAddressingInformationHandler.validate_ai_mixed_29bit typ cid
            ta sa ae with
        | error err =>
          rw [hval] at ho1
          injection ho1 with h1 h2 h3
          exact (Option.noConfusion h3)
        | ok u =>
          cases u
          rw [hval] at ho1
          cases hval2 : p.validate_unambiguous_ai_change .MIXED_29BIT_ADDRESSING with
          | error err =>
            rw [hval2] at ho1
            injection ho1 with h1 h2 h3
            exact (Option.noConfusion h3)
          | ok u =>
            cases u
            exact ⟨hval, CanPacketS.unamb_inv hval2⟩

theorem FrameDecodeWf_map {fmt0 fmt1 : CanAddressingFormat} {pt : CanPacketType}
    {rfd rfd1 : List Nat}
    (hai : CanAddressingInformationHandler.get_ai_data_bytes_number fmt1 =
      CanAddressingInformationHandler.get_ai_data_bytes_number fmt0)
    (hlen : rfd1.length = rfd.length)
    (hdrop : rfd1.drop (CanAddressingInformationHandler.get_ai_data_bytes_number fmt1) =
      rfd.drop (CanAddressingInformationHandler.get_ai_data_bytes_number fmt0))
    (h : FrameDecodeWf fmt0 pt rfd) : FrameDecodeWf fmt1 pt rfd1 := by
  cases pt with
  | SINGLE_FRAME =>
    obtain ⟨h1, h2⟩ := h
    constructor
    · unfold CanSingleFrameHandler.decode_payload at h1 ⊢
      rw [hlen, hdrop]
      exact h1
    · unfold CanSingleFrameHandler.decode_sf_dl at h2 ⊢
      rw [hlen, hdrop]
      exact h2
  | FIRST_FRAME =>
    obtain ⟨h1, h2⟩ := h
    constructor
    · unfold CanFirstFrameHandler.decode_payload at h1 ⊢
      rw [hdrop]
      exact h1
    · unfold CanFirstFrameHandler.decode_ff_dl at h2 ⊢
      rw [hdrop]
      exact h2
  | CONSECUTIVE_FRAME =>
    obtain ⟨h1, h2⟩ := h
    constructor
    · unfold CanConsecutiveFrameHandler.decode_payload at h1 ⊢
      rw [hdrop]
      exact h1
    · unfold CanConsecutiveFrameHandler.decode_sequence_number at h2 ⊢
      rw [hdrop]
      exact h2
  | FLOW_CONTROL =>
    obtain ⟨h1, h2, h3⟩ := h
    refine ⟨?_, ?_, ?_⟩
    · unfold CanFlowControlHandler.decode_flow_status at h1 ⊢
      rw [hdrop]
      exact h1
    · unfold CanFlowControlHandler.decode_block_size at h2 ⊢
      rw [hdrop]
      exact h2
    · unfold CanFlowControlHandler.decode_st_min at h3 ⊢
      rw [hdrop]
      exact h3

theorem CanPacketS.setai_addrok {p : CanPacketS} {fmt' : CanAddressingFormat}
    {typ : AddressingType} {cid ta sa ae : Option Nat}
    (he : (p.set_address_information fmt' typ cid ta sa ae).error = none) :
    (p.set_address_information fmt' typ cid ta sa ae).state.AddrOk := by
  obtain ⟨hv, hml⟩ := CanPacketS.setai_ok_inv he
  obtain ⟨cid', ta', sa', ae', hd, heq, hwfa, henc, hlen_hd⟩ :=
    CanPacketS.setai_ok_anatomy hv hml
  rw [heq]
  exact ⟨fmt', typ, cid', rfl, rfl, rfl, hwfa⟩

theorem CanPacketS.setai_wf {p : CanPacketS} {fmt' : CanAddressingFormat}
    {typ : AddressingType} {cid ta sa ae : Option Nat}
    (hWf : p.Wf)
    (he : (p.set_address_information fmt' typ cid ta sa ae).error = none) :
    (p.set_address_information fmt' typ cid ta sa ae).state.Wf := by
  obtain ⟨hv, hml⟩ := CanPacketS.setai_ok_inv he
  obtain ⟨cid', ta', sa', ae', hd, heq, hwfa, henc, hlen_hd⟩ :=
    CanPacketS.setai_ok_anatomy hv hml
  obtain ⟨fmt0, typ0, cid0, d, pt, rfd, hfmt, htyp, hcid, hdlc, hpt, hraw, hw0, hd15,
    hlenr, hlt, ⟨ai0, henc0, htake0⟩, hfr⟩ := hWf
  have haieq := hml fmt0 hfmt
  have hhd0 : hd.length ≤ rfd.length := by
    rw [hlen_hd, haieq]
    omega
  rw [heq]
  refine ⟨fmt', typ, cid', d, pt, hd ++ rfd.drop hd.length, rfl, rfl, rfl, hdlc, hpt,
    ?_, hwfa, hd15, ?_, ?_, ⟨hd, henc, ?_⟩, ?_⟩
  · simp [hraw]
  · simp [List.length_append]
    omega
  · simp [List.length_append]
    rw [hlen_hd]
    omega
  · rw [← hlen_hd]
    exact List.take_left _ _
  · refine FrameDecodeWf_map haieq ?_ ?_ hfr
    · simp [List.length_append]
      omega
    · rw [← hlen_hd, List.drop_left, hlen_hd, haieq]

theorem CanPacketS.sf_set_wf {p : CanPacketS} {payload : List Nat} {dlc : Option Nat}
    {filler : Nat} (hA : p.AddrOk)
    (he : (p.set_single_frame_data payload dlc filler).error = none) :
    (p.set_single_frame_data payload dlc filler).state.Wf := by
  obtain ⟨fmt, typ, cid, hfmt, htyp, hcid, hw⟩ := hA
  unfold CanPacketS.set_single_frame_data at he ⊢
  rw [hfmt] at he ⊢
  dsimp only at he ⊢
  cases hcr : CanSingleFrameHandler.create_valid_frame_data fmt
      p.target_address p.address_extension dlc payload filler with
  | error e => rw [hcr] at he; exact (Option.noConfusion he)
  | ok rfd =>
    rw [hcr] at he
    dsimp only at he ⊢
    obtain ⟨⟨ai, hai, htake⟩, hlt, ⟨d, hpy, hd15, hlen⟩, hdp, hds⟩ :=
      sf_create_spec hcr
    rw [hpy] at he ⊢
    exact ⟨fmt, typ, cid, d, .SINGLE_FRAME, rfd, rfl, htyp, hcid, rfl, rfl, rfl,
      hw, hd15, hlen, hlt, ⟨ai, hai, htake⟩, by rw [hdp]; rfl, by rw [hds]; rfl⟩

theorem CanPacketS.ff_set_wf {p : CanPacketS} {dlc : Nat} {payload : List Nat}
    {data_length : Nat} (hA : p.AddrOk)
    (he : (p.set_first_frame_data dlc payload data_length).error = none) :
    (p.set_first_frame_data dlc payload data_length).state.Wf := by
  obtain ⟨fmt, typ, cid, hfmt, htyp, hcid, hw⟩ := hA
  unfold CanPacketS.set_first_frame_data at he ⊢
  rw [hfmt] at he ⊢
  dsimp only at he ⊢
  cases hcr : CanFirstFrameHandler.create_valid_frame_data fmt
      p.target_address p.address_extension dlc payload data_length with
  | error e => rw [hcr] at he; exact (Option.noConfusion he)
  | ok rfd =>
    rw [hcr] at he
    dsimp only at he ⊢
    obtain ⟨⟨ai, hai, htake⟩, hlt, hd15, hlen, hdl, hdp⟩ :=
      ff_create_spec hcr
    exact ⟨fmt, typ, cid, dlc, .FIRST_FRAME, rfd, rfl, htyp, hcid, rfl, rfl, rfl,
      hw, hd15, hlen, hlt, ⟨ai, hai, htake⟩, hdp, by rw [hdl]; rfl⟩

theorem CanPacketS.cf_set_wf {p : CanPacketS} {payload : List Nat} {sn : Nat}
    {dlc : Option Nat} {filler : Nat} (hA : p.AddrOk)
    (he : (p.set_consecutive_frame_data payload sn dlc filler).error = none) :
    (p.set_consecutive_frame_data payload sn dlc filler).state.Wf := by
  obtain ⟨fmt, typ, cid, hfmt, htyp, hcid, hw⟩ := hA
  unfold CanPacketS.set_consecutive_frame_data at he ⊢
  rw [hfmt] at he ⊢
  dsimp only at he ⊢
  cases hcr : CanConsecutiveFrameHandler.create_valid_frame_data fmt
      p.target_address p.address_extension dlc payload sn filler with
  | error e => rw [hcr] at he; exact (Option.noConfusion he)
  | ok rfd =>
    rw [hcr] at he
    dsimp only at he ⊢
    obtain ⟨⟨ai, hai, htake⟩, hlt, ⟨d, hpy, hd15, hlen⟩, hsn, hdp⟩ :=
      cf_create_spec hcr
    rw [hpy] at he ⊢
    exact ⟨fmt, typ, cid, d, .CONSECUTIVE_FRAME, rfd, rfl, htyp, hcid, rfl, rfl, rfl,
      hw, hd15, hlen, hlt, ⟨ai, hai, htake⟩, hdp, by rw [hsn]; rfl⟩

theorem CanPacketS.fc_set_wf {p : CanPacketS} {fs : Nat} {bs st : Option Nat}
    {dlc : Option Nat} {filler : Nat} (hA : p.AddrOk)
    (he : (p.set_flow_control_data fs bs st dlc filler).error = none) :
    (p.set_flow_control_data fs bs st dlc filler).state.Wf := by
  obtain ⟨fmt, typ, cid, hfmt, htyp, hcid, hw⟩ := hA
  unfold CanPacketS.set_flow_control_data at he ⊢
  rw [hfmt] at he ⊢
  dsimp only at he ⊢
  cases hcr : CanFlowControlHandler.create_valid_frame_data fmt
      p.target_address p.address_extension dlc fs bs st filler with
  | error e => rw [hcr] at he; exact (Option.noConfusion he)
  | ok rfd =>
    rw [hcr] at he
    dsimp only at he ⊢
    obtain ⟨⟨ai, hai, htake⟩, hlt, ⟨d, hpy, hd15, hlen⟩, hfs, hbs, hst⟩ :=
      fc_create_spec hcr
    rw [hpy] at he ⊢
    exact ⟨fmt, typ, cid, d, .FLOW_CONTROL, rfd, rfl, htyp, hcid, rfl, rfl, rfl,
      hw, hd15, hlen, hlt, ⟨ai, hai, htake⟩, by rw [hfs]; rfl, hbs, hst⟩

theorem CanPacketS.spd_wf {p : CanPacketS} {args : PacketDataArgs} (hA : p.AddrOk)
    (he : (p.set_packet_data args).error = none) :
    (p.set_packet_data args).state.Wf := by
  cases args with
  | sf payload dlc filler => exact CanPacketS.sf_set_wf hA he
  | ff dlc payload data_length => exact CanPacketS.ff_set_wf hA he
  | cf payload sn dlc filler => exact CanPacketS.cf_set_wf hA he
  | fc fs bs st dlc filler => exact CanPacketS.fc_set_wf hA he

theorem mkCanPacket_wf {fmt : CanAddressingFormat} {typ : AddressingType}
    {cid ta sa ae : Option Nat} {args : PacketDataArgs}
    (he : (mkCanPacket fmt typ cid ta sa ae args).error = none) :
    (mkCanPacket fmt typ cid ta sa ae args).state.Wf := by
  unfold mkCanPacket at he ⊢
  cases h1 : CanPacketS.initial.set_address_information fmt typ cid ta sa ae with
  | mk q w e =>
    cases e with
    | some err =>
      rw [h1] at he
      exact (Option.noConfusion he)
    | none =>
      rw [h1] at he
      dsimp only at he
      have hq : q.AddrOk := by
        have h3 := @CanPacketS.setai_addrok CanPacketS.initial fmt typ cid ta sa ae
          (by rw [h1])
        rw [h1] at h3
        exact h3
      cases h2 : q.set_packet_data args with
      | mk q2 w2 e2 =>
        rw [h2] at he
        dsimp only at he ⊢
        have h4 := CanPacketS.spd_wf hq (by rw [h2]; exact he)
        exact h4

theorem CanPacketS.setai_11_eq (p : CanPacketS) (typ : AddressingType)
    (cid : Option Nat) :
    p.set_address_information .NORMAL_11BIT_ADDRESSING typ cid none none none =
      p.set_address_information_normal_11bit typ cid := by
  unfold CanPacketS.set_address_information
  cases ho : p.set_address_information_normal_11bit typ cid with
  | mk q w e =>
    cases e with
    | none => simp
    | some err => rfl

theorem CanPacketS.setai_nf_eq (p : CanPacketS) (typ : AddressingType)
    (cid ta sa : Option Nat) :
    p.set_address_information .NORMAL_FIXED_ADDRESSING typ cid ta sa none =
      p.set_address_information_normal_fixed typ cid ta sa := by
  unfold CanPacketS.set_address_information
  cases ho : p.set_address_information_normal_fixed typ cid ta sa with
  | mk q w e =>
    cases e with
    | none => simp
    | some err => rfl

theorem CanPacketS.setai_ext_eq (p : CanPacketS) (typ : AddressingType)
    (cid ta : Option Nat) :
    p.set_address_information .EXTENDED_ADDRESSING typ cid ta none none =
      p.set_address_information_extended typ cid ta := by
  unfold CanPacketS.set_address_information
  cases ho : p.set_address_information_extended typ cid ta with
  | mk q w e =>
    cases e with
    | none => simp
    | some err => rfl

theorem CanPacketS.setai_m11_eq (p : CanPacketS) (typ : AddressingType)
    (cid ae : Option Nat) :
    p.set_address_information .MIXED_11BIT_ADDRESSING typ cid none none ae =
      p.set_address_information_mixed_11bit typ cid ae := by
  unfold CanPacketS.set_address_information
  cases ho : p.set_address_information_mixed_11bit typ cid ae with
  | mk q w e =>
    cases e with
    | none => simp
    | some err => rfl

theorem CanPacketS.setai_m29_eq (p : CanPacketS) (typ : AddressingType)
    (cid ta sa ae : Option Nat) :
    p.set_address_information .MIXED_29BIT_ADDRESSING typ cid ta sa ae =
      p.set_address_information_mixed_29bit typ ae cid ta sa := by
  rfl

/-- The states a `CanPacket` object can be in: constructed by
`CanPacket.__init__` and transformed by any sequence of successful
public setter calls. -/
inductive CanReachable : CanPacketS → Prop where
  | construct {fmt : CanAddressingFormat} {typ : AddressingType}
      {cid ta sa ae : Option Nat} {args : PacketDataArgs} :
      (mkCanPacket fmt typ cid ta sa ae args).error = none →
      CanReachable (mkCanPacket fmt typ cid ta sa ae args).state
  | step_set_ai {p : CanPacketS} {fmt : CanAddressingFormat} {typ : AddressingType}
      {cid ta sa ae : Option Nat} : CanReachable p →
      (p.set_address_information fmt typ cid ta sa ae).error = none →
      CanReachable (p.set_address_information fmt typ cid ta sa ae).state
  | step_ai_normal_11bit {p : CanPacketS} {typ : AddressingType} {cid : Option Nat} :
      CanReachable p →
      (p.set_address_information_normal_11bit typ cid).error = none →
      CanReachable (p.set_address_information_normal_11bit typ cid).state
  | step_ai_normal_fixed {p : CanPacketS} {typ : AddressingType}
      {cid ta sa : Option Nat} : CanReachable p →
      (p.set_address_information_normal_fixed typ cid ta sa).error = none →
      CanReachable (p.set_address_information_normal_fixed typ cid ta sa).state
  | step_ai_extended {p : CanPacketS} {typ : AddressingType} {cid ta : Option Nat} :
      CanReachable p →
      (p.set_address_information_extended typ cid ta).error = none →
      CanReachable (p.set_address_information_extended typ cid ta).state
  | step_ai_mixed_11bit {p : CanPacketS} {typ : AddressingType} {cid ae : Option Nat} :
      CanReachable p →
      (p.set_address_information_mixed_11bit typ cid ae).error = none →
      CanReachable (p.set_address_information_mixed_11bit typ cid ae).state
  | step_ai_mixed_29bit {p : CanPacketS} {typ : AddressingType}
      {ae cid ta sa : Option Nat} : CanReachable p →
      (p.set_address_information_mixed_29bit typ ae cid ta sa).error = none →
      CanReachable (p.set_address_information_mixed_29bit typ ae cid ta sa).state
  | step_set_packet_data {p : CanPacketS} {args : PacketDataArgs} : CanReachable p →
      (p.set_packet_data args).error = none →
      CanReachable (p.set_packet_data args).state
  | step_sf {p : CanPacketS} {payload : List Nat} {dlc : Option Nat} {filler : Nat} :
      CanReachable p →
      (p.set_single_frame_data payload dlc filler).error = none →
      CanReachable (p.set_single_frame_data payload dlc filler).state
  | step_ff {p : CanPacketS} {dlc : Nat} {payload : List Nat} {data_length : Nat} :
      CanReachable p →
      (p.set_first_frame_data dlc payload data_length).error = none →
      CanReachable (p.set_first_frame_data dlc payload data_length).state
  | step_cf {p : CanPacketS} {payload : List Nat} {sn : Nat} {dlc : Option Nat}
      {filler : Nat} : CanReachable p →
      (p.set_consecutive_frame_data payload sn dlc filler).error = none →
      CanReachable (p.set_consecutive_frame_data payload sn dlc filler).state
  | step_fc {p : CanPacketS} {fs : Nat} {bs st : Option Nat} {dlc : Option Nat}
      {filler : Nat} : CanReachable p →
      (p.set_flow_control_data fs bs st dlc filler).error = none →
      CanReachable (p.set_flow_control_data fs bs st dlc filler).state

theorem CanReachable.wf {p : CanPacketS} (h : CanReachable p) : p.Wf := by
  induction h with
  | construct he => exact mkCanPacket_wf he
  | step_set_ai _ he ih => exact CanPacketS.setai_wf ih he
  | step_ai_normal_11bit _ he ih =>
    rw [← CanPacketS.setai_11_eq] at he ⊢
    exact CanPacketS.setai_wf ih he
  | step_ai_normal_fixed _ he ih =>
    rw [← CanPacketS.setai_nf_eq] at he ⊢
    exact CanPacketS.setai_wf ih he
  | step_ai_extended _ he ih =>
    rw [← CanPacketS.setai_ext_eq] at he ⊢
    exact CanPacketS.setai_wf ih he
  | step_ai_mixed_11bit _ he ih =>
    rw [← CanPacketS.setai_m11_eq] at he ⊢
    exact CanPacketS.setai_wf ih he
  | step_ai_mixed_29bit _ he ih =>
    rw [← CanPacketS.setai_m29_eq] at he ⊢
    exact CanPacketS.setai_wf ih he
  | step_set_packet_data _ he ih => exact CanPacketS.spd_wf ih.addrOk he
  | step_sf _ he ih => exact CanPacketS.sf_set_wf ih.addrOk he
  | step_ff _ he ih => exact CanPacketS.ff_set_wf ih.addrOk he
  | step_cf _ he ih => exact CanPacketS.cf_set_wf ih.addrOk he
  | step_fc _ he ih => exact CanPacketS.fc_set_wf ih.addrOk he

theorem CanPacketS.sf_set_atomic (p : CanPacketS) (payload : List Nat)
    (dlc : Option Nat) (filler : Nat)
    (he : (p.set_single_frame_data payload dlc filler).error.isSome = true) :
    (p.set_single_frame_data payload dlc filler).state = p := by
  unfold CanPacketS.set_single_frame_data at he ⊢
  cases hfmt : p.addressing_format with
  | none => rfl
  | some fmt =>
    rw [hfmt] at he
    dsimp only at he ⊢
    cases hcr : CanSingleFrameHandler.create_valid_frame_data fmt
        p.target_address p.address_extension dlc payload filler with
    | error e => rfl
    | ok rfd =>
      rw [hcr] at he
      dsimp only at he
      obtain ⟨_, _, ⟨d, hpy, _, _⟩, _, _⟩ := sf_create_spec hcr
      rw [hpy] at he
      exact (Bool.noConfusion he)

theorem CanPacketS.ff_set_atomic (p : CanPacketS) (dlc : Nat) (payload : List Nat)
    (data_length : Nat)
    (he : (p.set_first_frame_data dlc payload data_length).error.isSome = true) :
    (p.set_first_frame_data dlc payload data_length).state = p := by
  unfold CanPacketS.set_first_frame_data at he ⊢
  cases hfmt : p.addressing_format with
  | none => rfl
  | some fmt =>
    rw [hfmt] at he
    dsimp only at he ⊢
    cases hcr : CanFirstFrameHandler.create_valid_frame_data fmt
        p.target_address p.address_extension dlc payload data_length with
    | error e => rfl
    | ok rfd =>
      rw [hcr] at he
      exact (Bool.noConfusion he)

theorem CanPacketS.cf_set_atomic (p : CanPacketS) (payload : List Nat) (sn : Nat)
    (dlc : Option Nat) (filler : Nat)
    (he : (p.set_consecutive_frame_data payload sn dlc filler).error.isSome = true) :
    (p.set_consecutive_frame_data payload sn dlc filler).state = p := by
  unfold CanPacketS.set_consecutive_frame_data at he ⊢
  cases hfmt : p.addressing_format with
  | none => rfl
  | some fmt =>
    rw [hfmt] at he
    dsimp only at he ⊢
    cases hcr : CanConsecutiveFrameHandler.create_valid_frame_data fmt
        p.target_address p.address_extension dlc payload sn filler with
    | error e => rfl
    | ok rfd =>
      rw [hcr] at he
      dsimp only at he
      obtain ⟨_, _, ⟨d, hpy, _, _⟩, _, _⟩ := cf_create_spec hcr
      rw [hpy] at he
      exact (Bool.noConfusion he)

theorem CanPacketS.fc_set_atomic (p : CanPacketS) (fs : Nat) (bs st : Option Nat)
    (dlc : Option Nat) (filler : Nat)
    (he : (p.set_flow_control_data fs bs st dlc filler).error.isSome = true) :
    (p.set_flow_control_data fs bs st dlc filler).state = p := by
  unfold CanPacketS.set_flow_control_data at he ⊢
  cases hfmt : p.addressing_format with
  | none => rfl
  | some fmt =>
    rw [hfmt] at he
    dsimp only at he ⊢
    cases hcr : CanFlowControlHandler.create_valid_frame_data fmt
        p.target_address p.address_extension dlc fs bs st filler with
    | error e => rfl
    | ok rfd =>
      rw [hcr] at he
      dsimp only at he
      obtain ⟨_, _, ⟨d, hpy, _, _⟩, _, _, _⟩ := fc_create_spec hcr
      rw [hpy] at he
      exact (Bool.noConfusion he)

/-- Attribute state of an `AnyCanPacket` object
(`src/uds/packet/can_packet.py` lines 692-796). -/
structure AnyCanPacketS where
  raw_frame_data : List Nat
  addressing_format : CanAddressingFormat
  addressing_type : AddressingType
  can_id : Nat
deriving DecidableEq

/-- The `raw_frame_data` property setter of `AnyCanPacket` (source
lines 742-751): sanity-check that the value is raw bytes and that the
byte count is DLC-legal. -/
def AnyCanPacketS.set_raw_frame_data (p : AnyCanPacketS) (value : List Nat) :
    Except UdsErr AnyCanPacketS :=
  match validate_raw_bytes value true with
  | .error e => .error e
  | .ok _ =>
    match CanDlcHandler.validate_data_bytes_number value.length with
    | .error e => .error e
    | .ok _ => .ok { p with raw_frame_data := value }

/-- The `addressing_type` property setter of `AnyCanPacket` (source
lines 758-766); member validation is absorbed by typing. -/
def AnyCanPacketS.set_addressing_type (p : AnyCanPacketS) (value : AddressingType) :
    Except UdsErr AnyCanPacketS :=
  .ok { p with addressing_type := value }

/-- The `addressing_format` property setter of `AnyCanPacket` (source
lines 773-781); member validation is absorbed by typing. -/
def AnyCanPacketS.set_addressing_format (p : AnyCanPacketS)
    (value : CanAddressingFormat) : Except UdsErr AnyCanPacketS :=
  .ok { p with addressing_format := value }

/-- The `can_id` property setter of `AnyCanPacket` (source lines
788-796): validates the CAN identifier range. -/
def AnyCanPacketS.set_can_id (p : AnyCanPacketS) (value : Nat) :
    Except UdsErr AnyCanPacketS :=
  match CanIdHandler.validate_can_id value with
  | .error e => .error e
  | .ok _ => .ok { p with can_id := value }

/-- `AnyCanPacket.__init__` (source lines 707-735): assign through the
four property setters in order — `raw_frame_data`, `addressing_format`,
`addressing_type`, `can_id` — so exactly their validations run. -/
def mkAnyCanPacket (raw_frame_data : List Nat)
    (addressing_format : CanAddressingFormat) (addressing_type : AddressingType)
    (can_id : Nat) : Except UdsErr AnyCanPacketS :=
  match validate_raw_bytes raw_frame_data true with
  | .error e => .error e
  | .ok _ =>
    match CanDlcHandler.validate_data_bytes_number raw_frame_data.length with
    | .error e => .error e
    | .ok _ =>
      match CanIdHandler.validate_can_id can_id with
      | .error e => .error e
      | .ok _ => .ok ⟨raw_frame_data, addressing_format, addressing_type, can_id⟩

/-- `AnyCanPacket.packet_type` (source lines 798-804): `None` when the
AI data bytes cover the whole frame, otherwise the high nibble of the
first byte after them. -/
def AnyCanPacketS.packet_type (p : AnyCanPacketS) : Option Nat :=
  (p.raw_frame_data.get?
    (CanAddressingInformationHandler.get_ai_data_bytes_number p.addressing_format)).map
    (· / 16)

/-- `AnyCanPacket.dlc` (source lines 806-809): re-encoded from the
frame length on every read (`CanDlcHandler.encode_dlc` raises when the
length exceeds 64 bytes, hence the `Except`). -/
def AnyCanPacketS.dlc (p : AnyCanPacketS) : Except UdsErr Nat :=
  CanDlcHandler.encode_dlc p.raw_frame_data.length

/-- `AnyCanPacket.__get_addressing_info` (source lines 939-951):
`None` when the AI data bytes do not fit in the frame, otherwise the
decoded Addressing Information. -/
def AnyCanPacketS.get_addressing_info (p : AnyCanPacketS) : Option AddressingInfo :=
  if CanAddressingInformationHandler.get_ai_data_bytes_number p.addressing_format >
      p.raw_frame_data.length then
    none
  else
    CanAddressingInformationHandler.decode_ai p.addressing_format p.can_id
      (p.raw_frame_data.take
        (CanAddressingInformationHandler.get_ai_data_bytes_number p.addressing_format))

/-- `AnyCanPacket.target_address` (source lines 811-824). -/
def AnyCanPacketS.target_address (p : AnyCanPacketS) : Option Nat :=
  match p.get_addressing_info with
  | none => none
  | some info => info.target_address

/-- `AnyCanPacket.source_address` (source lines 826-838). -/
def AnyCanPacketS.source_address (p : AnyCanPacketS) : Option Nat :=
  match p.get_addressing_info with
  | none => none
  | some info => info.source_address

/-- `AnyCanPacket.address_extension` (source lines 840-854). -/
def AnyCanPacketS.address_extension (p : AnyCanPacketS) : Option Nat :=
  match p.get_addressing_info with
  | none => none
  | some info => info.address_extension

/-- `AnyCanPacket.payload` (source lines 856-874): evaluates
`CanPacket.payload.fget` on the permissive object, whose `packet_type`
is a raw nibble compared against the `CanPacketType` values. -/
def AnyCanPacketS.payload (p : AnyCanPacketS) : Option (List Nat) :=
  match p.packet_type with
  | some 0 => CanSingleFrameHandler.decode_payload p.addressing_format p.raw_frame_data
  | some 1 => CanFirstFrameHandler.decode_payload p.addressing_format p.raw_frame_data
  | some 2 => CanConsecutiveFrameHandler.decode_payload p.addressing_format p.raw_frame_data
  | _ => none

/-- `AnyCanPacket.data_length` (source lines 876-889). -/
def AnyCanPacketS.data_length (p : AnyCanPacketS) : Option Nat :=
  match p.packet_type with
  | some 0 => CanSingleFrameHandler.decode_sf_dl p.addressing_format p.raw_frame_data
  | some 1 => CanFirstFrameHandler.decode_ff_dl p.addressing_format p.raw_frame_data
  | _ => none

/-- `AnyCanPacket.sequence_number` (source lines 891-901). -/
def AnyCanPacketS.sequence_number (p : AnyCanPacketS) : Option Nat :=
  match p.packet_type with
  | some 2 =>
    CanConsecutiveFrameHandler.decode_sequence_number p.addressing_format p.raw_frame_data
  | _ => none

/-- `AnyCanPacket.flow_status` (source lines 903-913). -/
def AnyCanPacketS.flow_status (p : AnyCanPacketS) : Option Nat :=
  match p.packet_type with
  | some 3 => CanFlowControlHandler.decode_flow_status p.addressing_format p.raw_frame_data
  | _ => none

/-- `AnyCanPacket.block_size` (source lines 915-925). -/
def AnyCanPacketS.block_size (p : AnyCanPacketS) : Option Nat :=
  match p.packet_type with
  | some 3 => CanFlowControlHandler.decode_block_size p.addressing_format p.raw_frame_data
  | _ => none

/-- `AnyCanPacket.st_min` (source lines 927-937). -/
def AnyCanPacketS.st_min (p : AnyCanPacketS) : Option Nat :=
  match p.packet_type with
  | some 3 => CanFlowControlHandler.decode_st_min p.addressing_format p.raw_frame_data
  | _ => none

/-- Sanity invariant of a permissive packet: raw bytes in range, a
DLC-legal byte count, an in-range CAN identifier. -/
def AnyCanPacketS.Inv (p : AnyCanPacketS) : Prop :=
  p.raw_frame_data.all (· < 256) = true ∧
  CanDlcHandler.validate_data_bytes_number p.raw_frame_data.length = .ok () ∧
  p.can_id < 2 ^ 29

/-- The states an `AnyCanPacket` object can be in: constructed by
`AnyCanPacket.__init__` and mutated by any sequence of successful
property setter calls. -/
inductive AnyReachable : AnyCanPacketS → Prop where
  | construct {raw : List Nat} {fmt : CanAddressingFormat} {typ : AddressingType}
      {cid : Nat} {p : AnyCanPacketS} :
      mkAnyCanPacket raw fmt typ cid = .ok p → AnyReachable p
  | step_raw {p q : AnyCanPacketS} {value : List Nat} : AnyReachable p →
      p.set_raw_frame_data value = .ok q → AnyReachable q
  | step_fmt {p q : AnyCanPacketS} {value : CanAddressingFormat} : AnyReachable p →
      p.set_addressing_format value = .ok q → AnyReachable q
  | step_typ {p q : AnyCanPacketS} {value : AddressingType} : AnyReachable p →
      p.set_addressing_type value = .ok q → AnyReachable q
  | step_cid {p q : AnyCanPacketS} {value : Nat} : AnyReachable p →
      p.set_can_id value = .ok q → AnyReachable q

theorem mkAnyCanPacket_inv {raw : List Nat} {fmt : CanAddressingFormat}
    {typ : AddressingType} {cid : Nat} {p : AnyCanPacketS}
    (h : mkAnyCanPacket raw fmt typ cid = .ok p) : p.Inv := by
  unfold mkAnyCanPacket at h
  cases h1 : validate_raw_bytes raw true with
  | error e => rw [h1] at h; exact (Except.noConfusion h)
  | ok u =>
    cases u
    rw [h1] at h
    cases h2 : CanDlcHandler.validate_data_bytes_number raw.length with
    | error e => rw [h2] at h; exact (Except.noConfusion h)
    | ok u =>
      cases u
      rw [h2] at h
      cases h3 : CanIdHandler.validate_can_id cid with
      | error e => rw [h3] at h; exact (Except.noConfusion h)
      | ok u =>
        cases u
        rw [h3] at h
        injection h with h
        subst h
        refine ⟨?_, h2, ?_⟩
        · unfold validate_raw_bytes at h1
          split_ifs at h1 with hb
          simp only [Bool.and_eq_true] at hb
          exact hb.2
        · unfold CanIdHandler.validate_can_id at h3
          split_ifs at h3 with hc
          exact hc

theorem AnyReachable.inv {p : AnyCanPacketS} (h : AnyReachable p) : p.Inv := by
  induction h with
  | construct hmk => exact mkAnyCanPacket_inv hmk
  | step_raw hr hs ih =>
    unfold AnyCanPacketS.set_raw_frame_data at hs
    rename_i p0 q value
    cases h1 : validate_raw_bytes value true with
    | error e => rw [h1] at hs; exact (Except.noConfusion hs)
    | ok u =>
      cases u
      rw [h1] at hs
      cases h2 : CanDlcHandler.validate_data_bytes_number value.length with
      | error e => rw [h2] at hs; exact (Except.noConfusion hs)
      | ok u =>
        cases u
        rw [h2] at hs
        injection hs with hs
        subst hs
        refine ⟨?_, h2, ih.2.2⟩
        unfold validate_raw_bytes at h1
        split_ifs at h1 with hb
        simp only [Bool.and_eq_true] at hb
        exact hb.2
  | step_fmt hr hs ih =>
    unfold AnyCanPacketS.set_addressing_format at hs
    injection hs with hs
    subst hs
    exact ⟨ih.1, ih.2.1, ih.2.2⟩
  | step_typ hr hs ih =>
    unfold AnyCanPacketS.set_addressing_type at hs
    injection hs with hs
    subst hs
    exact ⟨ih.1, ih.2.1, ih.2.2⟩
  | step_cid hr hs ih =>
    unfold AnyCanPacketS.set_can_id at hs
    rename_i p0 q value
    cases h3 : CanIdHandler.validate_can_id value with
    | error e => rw [h3] at hs; exact (Except.noConfusion hs)
    | ok u =>
      cases u
      rw [h3] at hs
      injection hs with hs
      subst hs
      refine ⟨ih.1, ih.2.1, ?_⟩
      unfold CanIdHandler.validate_can_id at h3
      split_ifs at h3 with hc
      exact hc

theorem CanDlcHandler.encode_of_legal {n : Nat}
    (h : CanDlcHandler.validate_data_bytes_number n = .ok ()) :
    ∃ d, CanDlcHandler.encode_dlc n = .ok d ∧ d ≤ 15 ∧ CanDlcHandler.decode_dlc d = n := by
  unfold CanDlcHandler.validate_data_bytes_number at h
  split_ifs at h with hl
  rcases hl with h8 | h12 | h16 | h20 | h24 | h32 | h48 | h64
  · refine ⟨n, ?_, by omega, ?_⟩
    · unfold CanDlcHandler.encode_dlc
      rw [if_pos h8]
    · unfold CanDlcHandler.decode_dlc
      rw [if_pos h8]
  · subst h12; exact ⟨9, rfl, by omega, rfl⟩
  · subst h16; exact ⟨10, rfl, by omega, rfl⟩
  · subst h20; exact ⟨11, rfl, by omega, rfl⟩
  · subst h24; exact ⟨12, rfl, by omega, rfl⟩
  · subst h32; exact ⟨13, rfl, by omega, rfl⟩
  · subst h48; exact ⟨14, rfl, by omega, rfl⟩
  · subst h64; exact ⟨15, rfl, by omega, rfl⟩

theorem List.take_one_cons {rfd : List Nat} {x : Nat} (h : rfd.take 1 = [x]) :
    x :: rfd.drop 1 = rfd := by
  cases rfd with
  | nil => simp at h
  | cons a l =>
    simp at h
    subst h
    rfl

/-- C1: for every permissive packet accepted by the `AnyCanPacket`
constructor, every accessor is total: the `dlc` re-encoding succeeds,
`packet_type` is `None` or the high nibble of an in-frame byte, the
addressing accessors return `None` when the AI data bytes do not fit in
the frame, and every kind-specific accessor returns `None` when the PCI
nibble is missing or does not name its kind — no access ever fails. -/
theorem claim_C1_permissive_accessors_total :
    ∀ (raw : List Nat) (fmt : CanAddressingFormat) (typ : AddressingType) (cid : Nat)
      (p : AnyCanPacketS), mkAnyCanPacket raw fmt typ cid = .ok p →
      (∃ d, p.dlc = .ok d) ∧
      (p.packet_type = none ∨
        ∃ b ∈ p.raw_frame_data, p.packet_type = some (b / 16)) ∧
      (CanAddressingInformationHandler.get_ai_data_bytes_number p.addressing_format >
          p.raw_frame_data.length →
        p.target_address = none ∧ p.source_address = none ∧
          p.address_extension = none) ∧
      (p.packet_type = none →
        p.payload = none ∧ p.data_length = none ∧ p.sequence_number = none ∧
        p.flow_status = none ∧ p.block_size = none ∧ p.st_min = none) ∧
      (∀ n, p.packet_type = some n → 3 < n →
        p.payload = none ∧ p.data_length = none ∧ p.sequence_number = none ∧
        p.flow_status = none ∧ p.block_size = none ∧ p.st_min = none) := by
  intro raw fmt typ cid p hmk
  have hinv := mkAnyCanPacket_inv hmk
  refine ⟨?_, ?_, ?_, ?_, ?_⟩
  · obtain ⟨d, hd, _, _⟩ := CanDlcHandler.encode_of_legal hinv.2.1
    exact ⟨d, hd⟩
  · unfold AnyCanPacketS.packet_type
    cases hb : p.raw_frame_data.get?
        (CanAddressingInformationHandler.get_ai_data_bytes_number p.addressing_format) with
    | none => exact Or.inl rfl
    | some b =>
      exact Or.inr ⟨b, List.get?_mem hb, rfl⟩
  · intro hgt
    have hinfo : p.get_addressing_info = none := by
      unfold AnyCanPacketS.get_addressing_info
      rw [if_pos hgt]
    unfold AnyCanPacketS.target_address AnyCanPacketS.source_address
      AnyCanPacketS.address_extension
    rw [hinfo]
    exact ⟨rfl, rfl, rfl⟩
  · intro hpt
    unfold AnyCanPacketS.payload AnyCanPacketS.data_length AnyCanPacketS.sequence_number
      AnyCanPacketS.flow_status AnyCanPacketS.block_size AnyCanPacketS.st_min
    rw [hpt]
    exact ⟨rfl, rfl, rfl, rfl, rfl, rfl⟩
  · intro n hpt hgt
    obtain ⟨m, rfl⟩ : ∃ m, n = m + 4 := ⟨n - 4, by omega⟩
    unfold AnyCanPacketS.payload AnyCanPacketS.data_length AnyCanPacketS.sequence_number
      AnyCanPacketS.flow_status AnyCanPacketS.block_size AnyCanPacketS.st_min
    rw [hpt]
    exact ⟨rfl, rfl, rfl, rfl, rfl, rfl⟩

theorem claim_C1_witness :
    ∃ d, AnyCanPacketS.dlc ⟨[], .NORMAL_11BIT_ADDRESSING, .PHYSICAL, 0⟩ = .ok d :=
  (claim_C1_permissive_accessors_total [] .NORMAL_11BIT_ADDRESSING .PHYSICAL 0
    ⟨[], .NORMAL_11BIT_ADDRESSING, .PHYSICAL, 0⟩ (by decide)).1

/-- C7 counterexample: the raw frame `[300]` has a DLC-legal byte
count (1) and the CAN identifier 0 is in range, yet the `AnyCanPacket`
constructor rejects it — `validate_raw_bytes` also checks that every
element is a byte, a third validation beyond the two the claim lists. -/
theorem claim_C7_counterexample :
    CanDlcHandler.validate_data_bytes_number ([300] : List Nat).length = .ok () ∧
    CanIdHandler.validate_can_id 0 = .ok () ∧
    mkAnyCanPacket [300] .NORMAL_11BIT_ADDRESSING .PHYSICAL 0 =
      .error .invalidArgument := by
  exact ⟨by decide, by decide, by decide⟩

/-- C7 (amended): the permissive constructor performs exactly three
validations — the elements of `raw_frame_data` are raw bytes
(0x00..0xFF, `validate_raw_bytes`), the byte count is DLC-legal, and
the CAN identifier is in range; every input passing these three checks
is accepted. -/
theorem claim_C7_permissive_constructor_checks :
    ∀ (raw : List Nat) (fmt : CanAddressingFormat) (typ : AddressingType) (cid : Nat),
      (∃ p, mkAnyCanPacket raw fmt typ cid = .ok p) ↔
        (validate_raw_bytes raw true = .ok () ∧
         CanDlcHandler.validate_data_bytes_number raw.length = .ok () ∧
         CanIdHandler.validate_can_id cid = .ok ()) := by
  intro raw fmt typ cid
  constructor
  · rintro ⟨p, hp⟩
    unfold mkAnyCanPacket at hp
    cases h1 : validate_raw_bytes raw true with
    | error e => rw [h1] at hp; exact (Except.noConfusion hp)
    | ok u =>
      cases u
      rw [h1] at hp
      cases h2 : CanDlcHandler.validate_data_bytes_number raw.length with
      | error e => rw [h2] at hp; exact (Except.noConfusion hp)
      | ok u =>
        cases u
        rw [h2] at hp
        cases h3 : CanIdHandler.validate_can_id cid with
        | error e => rw [h3] at hp; exact (Except.noConfusion hp)
        | ok u =>
          cases u
          exact ⟨rfl, rfl, rfl⟩
  · rintro ⟨h1, h2, h3⟩
    refine ⟨⟨raw, fmt, typ, cid⟩, ?_⟩
    unfold mkAnyCanPacket
    rw [h1, h2, h3]

/-- C6: for every constructed packet — a `CanPacket` in any reachable
state and an `AnyCanPacket` in any reachable state — the length of
`raw_frame_data` is a DLC-legal byte count and the `dlc` value equals
the DLC encoding of that length. -/
theorem claim_C6_dlc_invariant :
    (∀ p : CanPacketS, CanReachable p →
      ∃ rfd d, p.raw_frame_data = some rfd ∧ p.dlc = some d ∧
        CanDlcHandler.validate_data_bytes_number rfd.length = .ok () ∧
        CanDlcHandler.encode_dlc rfd.length = .ok d) ∧
    (∀ q : AnyCanPacketS, AnyReachable q →
      CanDlcHandler.validate_data_bytes_number q.raw_frame_data.length = .ok () ∧
      ∃ d, q.dlc = .ok d ∧ CanDlcHandler.decode_dlc d = q.raw_frame_data.length) := by
  constructor
  · intro p hr
    obtain ⟨fmt, typ, cid, d, pt, rfd, hfmt, htyp, hcid, hdlc, hpt, hraw, hw, hd15,
      hlen, hlt, hhead, hfr⟩ := hr.wf
    refine ⟨rfd, d, hraw, hdlc, ?_, ?_⟩
    · rw [hlen]
      exact CanDlcHandler.validate_ok_of_decode hd15
    · rw [hlen]
      exact CanDlcHandler.encode_decode hd15
  · intro q hr
    have hinv := hr.inv
    obtain ⟨d, hd, _, hdec⟩ := CanDlcHandler.encode_of_legal hinv.2.1
    exact ⟨hinv.2.1, d, hd, hdec⟩

theorem claim_C6_witness :
    (∃ rfd d,
      (mkCanPacket .NORMAL_11BIT_ADDRESSING .PHYSICAL (some 1) none none none
        (.sf [2] none 170)).state.raw_frame_data = some rfd ∧
      (mkCanPacket .NORMAL_11BIT_ADDRESSING .PHYSICAL (some 1) none none none
        (.sf [2] none 170)).state.dlc = some d ∧
      CanDlcHandler.validate_data_bytes_number rfd.length = .ok () ∧
      CanDlcHandler.encode_dlc rfd.length = .ok d) ∧
    (CanDlcHandler.validate_data_bytes_number
        (⟨[1, 2], .NORMAL_11BIT_ADDRESSING, .PHYSICAL, 0⟩ :
          AnyCanPacketS).raw_frame_data.length = .ok () ∧
      ∃ d, (⟨[1, 2], .NORMAL_11BIT_ADDRESSING, .PHYSICAL, 0⟩ : AnyCanPacketS).dlc = .ok d ∧
        CanDlcHandler.decode_dlc d =
          (⟨[1, 2], .NORMAL_11BIT_ADDRESSING, .PHYSICAL, 0⟩ :
            AnyCanPacketS).raw_frame_data.length) :=
  ⟨claim_C6_dlc_invariant.1 _ (CanReachable.construct (by decide)),
   claim_C6_dlc_invariant.2 _ (@AnyReachable.construct [1, 2]
     .NORMAL_11BIT_ADDRESSING .PHYSICAL 0
     ⟨[1, 2], .NORMAL_11BIT_ADDRESSING, .PHYSICAL, 0⟩ (by decide))⟩

/-- C10: a permissive `AnyCanPacket` is mutable after construction:
each of the four property setters re-runs exactly the validation the
constructor runs for that field, rewrites only its own field, and
preserves the sanity invariants (raw bytes, DLC-legal count, in-range
CAN identifier) on every successful write. -/
theorem claim_C10_permissive_setters :
    ∀ q : AnyCanPacketS, AnyReachable q →
      (∀ v, (∃ r, q.set_raw_frame_data v = .ok r) ↔
        (validate_raw_bytes v true = .ok () ∧
         CanDlcHandler.validate_data_bytes_number v.length = .ok ())) ∧
      (∀ v r, q.set_raw_frame_data v = .ok r →
        r = { q with raw_frame_data := v } ∧ r.Inv ∧ AnyReachable r) ∧
      (∀ f, q.set_addressing_format f = .ok { q with addressing_format := f } ∧
        AnyReachable ({ q with addressing_format := f } : AnyCanPacketS)) ∧
      (∀ t, q.set_addressing_type t = .ok { q with addressing_type := t } ∧
        AnyReachable ({ q with addressing_type := t } : AnyCanPacketS)) ∧
      (∀ c, (∃ r, q.set_can_id c = .ok r) ↔ CanIdHandler.validate_can_id c = .ok ()) ∧
      (∀ c r, q.set_can_id c = .ok r →
        r = { q with can_id := c } ∧ r.Inv ∧ AnyReachable r) := by
  intro q hq
  refine ⟨?_, ?_, ?_, ?_, ?_, ?_⟩
  · intro v
    constructor
    · rintro ⟨r, hr⟩
      unfold AnyCanPacketS.set_raw_frame_data at hr
      cases h1 : validate_raw_bytes v true with
      | error e => rw [h1] at hr; exact (Except.noConfusion hr)
      | ok u =>
        cases u
        rw [h1] at hr
        cases h2 : CanDlcHandler.validate_data_bytes_number v.length with
        | error e => rw [h2] at hr; exact (Except.noConfusion hr)
        | ok u =>
          cases u
          exact ⟨rfl, rfl⟩
    · rintro ⟨h1, h2⟩
      refine ⟨{ q with raw_frame_data := v }, ?_⟩
      unfold AnyCanPacketS.set_raw_frame_data
      rw [h1, h2]
  · intro v r hr
    have hst : r = { q with raw_frame_data := v } := by
      unfold AnyCanPacketS.set_raw_frame_data at hr
      cases h1 : validate_raw_bytes v true with
      | error e => rw [h1] at hr; exact (Except.noConfusion hr)
      | ok u =>
        cases u
        rw [h1] at hr
        cases h2 : CanDlcHandler.validate_data_bytes_number v.length with
        | error e => rw [h2] at hr; exact (Except.noConfusion hr)
        | ok u =>
          cases u
          rw [h2] at hr
          injection hr with hr
          exact hr.symm
    have hre : AnyReachable r := AnyReachable.step_raw hq hr
    exact ⟨hst, hre.inv, hre⟩
  · intro f
    exact ⟨rfl, AnyReachable.step_fmt hq rfl⟩
  · intro t
    exact ⟨rfl, AnyReachable.step_typ hq rfl⟩
  · intro c
    constructor
    · rintro ⟨r, hr⟩
      unfold AnyCanPacketS.set_can_id at hr
      cases h3 : CanIdHandler.validate_can_id c with
      | error e => rw [h3] at hr; exact (Except.noConfusion hr)
      | ok u =>
        cases u
        rfl
    · intro h3
      refine ⟨{ q with can_id := c }, ?_⟩
      unfold AnyCanPacketS.set_can_id
      rw [h3]
  · intro c r hr
    have hst : r = { q with can_id := c } := by
      unfold AnyCanPacketS.set_can_id at hr
      cases h3 : CanIdHandler.validate_can_id c with
      | error e => rw [h3] at hr; exact (Except.noConfusion hr)
      | ok u =>
        cases u
        rw [h3] at hr
        injection hr with hr
        exact hr.symm
    have hre : AnyReachable r := AnyReachable.step_cid hq hr
    exact ⟨hst, hre.inv, hre⟩

theorem claim_C10_witness :
    (∃ r, AnyCanPacketS.set_raw_frame_data
        ⟨[1, 2], .NORMAL_11BIT_ADDRESSING, .PHYSICAL, 0⟩ [5] = .ok r) ↔
      (validate_raw_bytes [5] true = .ok () ∧
       CanDlcHandler.validate_data_bytes_number (List.length ([5] : List Nat)) = .ok ()) :=
  (claim_C10_permissive_setters ⟨[1, 2], .NORMAL_11BIT_ADDRESSING, .PHYSICAL, 0⟩
    (@AnyReachable.construct [1, 2] .NORMAL_11BIT_ADDRESSING .PHYSICAL 0
      ⟨[1, 2], .NORMAL_11BIT_ADDRESSING, .PHYSICAL, 0⟩ (by decide))).1 [5]

/-- C5: a per-kind data setter of a validated `CanPacket` whose
arguments are rejected raises and leaves the attribute state exactly as
it was before the call, and a constructor call that returns without
error yields a fully initialised object (no attribute is left at its
pre-init `None`). -/
theorem claim_C5_setter_atomicity_and_constructor :
    (∀ p : CanPacketS, CanReachable p →
      (∀ (payload : List Nat) (dlc : Option Nat) (filler : Nat),
        (p.set_single_frame_data payload dlc filler).error.isSome = true →
        (p.set_single_frame_data payload dlc filler).state = p) ∧
      (∀ (dlc : Nat) (payload : List Nat) (data_length : Nat),
        (p.set_first_frame_data dlc payload data_length).error.isSome = true →
        (p.set_first_frame_data dlc payload data_length).state = p) ∧
      (∀ (payload : List Nat) (sn : Nat) (dlc : Option Nat) (filler : Nat),
        (p.set_consecutive_frame_data payload sn dlc filler).error.isSome = true →
        (p.set_consecutive_frame_data payload sn dlc filler).state = p) ∧
      (∀ (fs : Nat) (bs st dlc : Option Nat) (filler : Nat),
        (p.set_flow_control_data fs bs st dlc filler).error.isSome = true →
        (p.set_flow_control_data fs bs st dlc filler).state = p)) ∧
    (∀ (fmt : CanAddressingFormat) (typ : AddressingType) (cid ta sa ae : Option Nat)
      (args : PacketDataArgs),
      (mkCanPacket fmt typ cid ta sa ae args).error = none →
      (mkCanPacket fmt typ cid ta sa ae args).state.raw_frame_data.isSome = true ∧
      (mkCanPacket fmt typ cid ta sa ae args).state.addressing_format.isSome = true ∧
      (mkCanPacket fmt typ cid ta sa ae args).state.addressing_type.isSome = true ∧
      (mkCanPacket fmt typ cid ta sa ae args).state.packet_type.isSome = true ∧
      (mkCanPacket fmt typ cid ta sa ae args).state.can_id.isSome = true ∧
      (mkCanPacket fmt typ cid ta sa ae args).state.dlc.isSome = true) := by
  constructor
  · intro p _
    exact ⟨CanPacketS.sf_set_atomic p, CanPacketS.ff_set_atomic p,
      CanPacketS.cf_set_atomic p, CanPacketS.fc_set_atomic p⟩
  · intro fmt typ cid ta sa ae args he
    obtain ⟨fmt0, typ0, cid0, d, pt, rfd, hfmt, htyp, hcid, hdlc, hpt, hraw, _⟩ :=
      mkCanPacket_wf he
    rw [hraw, hfmt, htyp, hpt, hcid, hdlc]
    exact ⟨rfl, rfl, rfl, rfl, rfl, rfl⟩

theorem claim_C5_witness :
    ((mkCanPacket .NORMAL_11BIT_ADDRESSING .PHYSICAL (some 1) none none none
        (.sf [2] none 170)).state.set_single_frame_data [] none 170).state =
      (mkCanPacket .NORMAL_11BIT_ADDRESSING .PHYSICAL (some 1) none none none
        (.sf [2] none 170)).state :=
  ((claim_C5_setter_atomicity_and_constructor.1 _
    (CanReachable.construct (by decide))).1 [] none 170 (by decide))

/-- C4: a successful `set_address_information` call on a constructed
`CanPacket` rewrites only the leading AI data bytes of
`raw_frame_data`: the frame keeps its length and every byte from index
`ai_bytes` onward is unchanged. -/
theorem claim_C4_set_ai_rewrites_only_head :
    ∀ (p : CanPacketS) (fmt' : CanAddressingFormat) (typ : AddressingType)
      (cid ta sa ae : Option Nat), CanReachable p →
      (p.set_address_information fmt' typ cid ta sa ae).error = none →
      ∃ rfd rfd', p.raw_frame_data = some rfd ∧
        (p.set_address_information fmt' typ cid ta sa ae).state.raw_frame_data =
          some rfd' ∧
        rfd'.length = rfd.length ∧
        rfd'.drop (CanAddressingInformationHandler.get_ai_data_bytes_number fmt') =
          rfd.drop (CanAddressingInformationHandler.get_ai_data_bytes_number fmt') := by
  intro p fmt' typ cid ta sa ae hr he
  obtain ⟨fmt0, typ0, cid0, d, pt, rfd, hfmt, htyp, hcid, hdlc, hpt, hraw, hw, hd15,
    hlen, hlt, hhead, hfr⟩ := hr.wf
  obtain ⟨hv, hml⟩ := CanPacketS.setai_ok_inv he
  obtain ⟨cid', ta', sa', ae', hd, heq, hwfa, henc, hlen_hd⟩ :=
    CanPacketS.setai_ok_anatomy hv hml
  have haieq := hml fmt0 hfmt
  have hhdlen : hd.length ≤ rfd.length := by
    rw [hlen_hd, haieq]
    omega
  refine ⟨rfd, hd ++ rfd.drop hd.length, hraw, ?_, ?_, ?_⟩
  · rw [heq]
    simp [hraw]
  · simp [List.length_append]
    omega
  · rw [← hlen_hd, List.drop_left]

theorem claim_C4_witness :
    ∃ rfd rfd',
      (mkCanPacket .NORMAL_11BIT_ADDRESSING .PHYSICAL (some 1) none none none
        (.sf [2] none 170)).state.raw_frame_data = some rfd ∧
      ((mkCanPacket .NORMAL_11BIT_ADDRESSING .PHYSICAL (some 1) none none none
          (.sf [2] none 170)).state.set_address_information
        .NORMAL_11BIT_ADDRESSING .PHYSICAL (some 2) none none
        none).state.raw_frame_data = some rfd' ∧
      rfd'.length = rfd.length ∧
      rfd'.drop (CanAddressingInformationHandler.get_ai_data_bytes_number
        .NORMAL_11BIT_ADDRESSING) =
        rfd.drop (CanAddressingInformationHandler.get_ai_data_bytes_number
          .NORMAL_11BIT_ADDRESSING) :=
  claim_C4_set_ai_rewrites_only_head _ .NORMAL_11BIT_ADDRESSING .PHYSICAL
    (some 2) none none none (CanReachable.construct (by decide)) (by decide)

/-- C3: on a constructed `CanPacket`, a `set_address_information` call
whose addressing arguments are themselves valid fails with
`AmbiguityError` exactly when the new addressing format uses a
different number of AI data bytes than the current one, and on that
failure no attribute of the packet changes. -/
theorem claim_C3_ambiguity_iff :
    ∀ (p : CanPacketS) (fmt' : CanAddressingFormat) (typ : AddressingType)
      (cid ta sa ae : Option Nat) (fmt0 : CanAddressingFormat),
      CanReachable p → p.addressing_format = some fmt0 →
      validateAiFor fmt' typ cid ta sa ae = .ok () →
      (((p.set_address_information fmt' typ cid ta sa ae).error = some .ambiguity) ↔
        CanAddressingInformationHandler.get_ai_data_bytes_number fmt' ≠
          CanAddressingInformationHandler.get_ai_data_bytes_number fmt0) ∧
      (CanAddressingInformationHandler.get_ai_data_bytes_number fmt' ≠
          CanAddressingInformationHandler.get_ai_data_bytes_number fmt0 →
        (p.set_address_information fmt' typ cid ta sa ae).state = p) := by
  intro p fmt' typ cid ta sa ae fmt0 _ hfmt hv
  by_cases hne : CanAddressingInformationHandler.get_ai_data_bytes_number fmt' =
      CanAddressingInformationHandler.get_ai_data_bytes_number fmt0
  · have hml : ∀ f0, p.addressing_format = some f0 →
        CanAddressingInformationHandler.get_ai_data_bytes_number fmt' =
          CanAddressingInformationHandler.get_ai_data_bytes_number f0 := by
      intro f0 hf
      rw [hfmt] at hf
      injection hf with hf
      rw [← hf]
      exact hne
    obtain ⟨cid', ta', sa', ae', hd, heq, _⟩ := CanPacketS.setai_ok_anatomy hv hml
    rw [heq]
    constructor
    · simp only []
      constructor
      · intro hcontra
        exact (Option.noConfusion hcontra)
      · intro hcontra
        exact absurd hne hcontra
    · intro hcontra
      exact absurd hne hcontra
  · have heq := CanPacketS.setai_ambiguous hfmt hv hne
    rw [heq]
    exact ⟨by simp [hne], fun _ => rfl⟩

theorem claim_C3_witness :
    (((mkCanPacket .NORMAL_11BIT_ADDRESSING .PHYSICAL (some 1) none none none
        (.sf [2] none 170)).state.set_address_information
      .EXTENDED_ADDRESSING .PHYSICAL (some 5) (some 7) none none).error =
        some .ambiguity ↔
      CanAddressingInformationHandler.get_ai_data_bytes_number .EXTENDED_ADDRESSING ≠
        CanAddressingInformationHandler.get_ai_data_bytes_number
          .NORMAL_11BIT_ADDRESSING) ∧
    (CanAddressingInformationHandler.get_ai_data_bytes_number .EXTENDED_ADDRESSING ≠
        CanAddressingInformationHandler.get_ai_data_bytes_number
          .NORMAL_11BIT_ADDRESSING →
      ((mkCanPacket .NORMAL_11BIT_ADDRESSING .PHYSICAL (some 1) none none none
        (.sf [2] none 170)).state.set_address_information
        .EXTENDED_ADDRESSING .PHYSICAL (some 5) (some 7) none none).state =
        (mkCanPacket .NORMAL_11BIT_ADDRESSING .PHYSICAL (some 1) none none none
          (.sf [2] none 170)).state) :=
  claim_C3_ambiguity_iff _ .EXTENDED_ADDRESSING .PHYSICAL (some 5) (some 7) none none
    .NORMAL_11BIT_ADDRESSING (CanReachable.construct (by decide)) (by decide) (by decide)

/-- C9: a `set_address_information` call with valid addressing
arguments and an unambiguous format change does not fail when the
caller also supplies non-`None` parameters the chosen format does not
use; instead it succeeds, emits one `UnusedArgumentWarning` carrying
exactly the parameters the format ignores (all of TA/SA/AE for
NORMAL_11BIT, AE for NORMAL_FIXED, SA/AE for EXTENDED, TA/SA for
MIXED_11BIT), and the addressing change takes effect. -/
theorem claim_C9_unused_argument_warning :
    ∀ (p : CanPacketS) (fmt' : CanAddressingFormat) (typ : AddressingType)
      (cid ta sa ae : Option Nat),
      validateAiFor fmt' typ cid ta sa ae = .ok () →
      (∀ f0, p.addressing_format = some f0 →
        CanAddressingInformationHandler.get_ai_data_bytes_number fmt' =
          CanAddressingInformationHandler.get_ai_data_bytes_number f0) →
      unusedWarnList fmt' ta sa ae ≠ [] →
      (p.set_address_information fmt' typ cid ta sa ae).error = none ∧
      (p.set_address_information fmt' typ cid ta sa ae).warnings =
        unusedWarnList fmt' ta sa ae ∧
      (p.set_address_information fmt' typ cid ta sa ae).state.addressing_format =
        some fmt' ∧
      (p.set_address_information fmt' typ cid ta sa ae).state.addressing_type =
        some typ := by
  intro p fmt' typ cid ta sa ae hv hml _
  obtain ⟨cid', ta', sa', ae', hd, heq, _⟩ := CanPacketS.setai_ok_anatomy hv hml
  rw [heq]
  exact ⟨rfl, rfl, rfl, rfl⟩

theorem claim_C9_witness :
    (CanPacketS.initial.set_address_information .NORMAL_11BIT_ADDRESSING .PHYSICAL
      (some 1) (some 5) none none).error = none ∧
    (CanPacketS.initial.set_address_information .NORMAL_11BIT_ADDRESSING .PHYSICAL
      (some 1) (some 5) none none).warnings =
      unusedWarnList .NORMAL_11BIT_ADDRESSING (some 5) none none ∧
    (CanPacketS.initial.set_address_information .NORMAL_11BIT_ADDRESSING .PHYSICAL
      (some 1) (some 5) none none).state.addressing_format =
      some .NORMAL_11BIT_ADDRESSING ∧
    (CanPacketS.initial.set_address_information .NORMAL_11BIT_ADDRESSING .PHYSICAL
      (some 1) (some 5) none none).state.addressing_type = some .PHYSICAL :=
  claim_C9_unused_argument_warning CanPacketS.initial .NORMAL_11BIT_ADDRESSING
    .PHYSICAL (some 1) (some 5) none none (by decide)
    (fun f0 h => Option.noConfusion h) (by decide)

/-- C2: re-applying `set_address_information` to a constructed
`CanPacket` with the packet's current addressing format, addressing
type, CAN identifier, target address, source address and address
extension succeeds and leaves `raw_frame_data` byte-for-byte equal. -/
theorem claim_C2_set_ai_idempotent :
    ∀ p : CanPacketS, CanReachable p →
      ∃ fmt typ, p.addressing_format = some fmt ∧ p.addressing_type = some typ ∧
        (p.set_address_information fmt typ p.can_id p.target_address
          p.source_address p.address_extension).error = none ∧
        (p.set_address_information fmt typ p.can_id p.target_address
          p.source_address p.address_extension).state.raw_frame_data =
          p.raw_frame_data := by
  intro p hr
  obtain ⟨fmt, typ, cid, d, pt, rfd, hfmt, htyp, hcid, hdlc, hpt, hraw, hw, hd15,
    hlen, hlt, ⟨ai, henc, htake⟩, hfr⟩ := hr.wf
  refine ⟨fmt, typ, hfmt, htyp, ?_⟩
  have hml : ∀ f0, p.addressing_format = some f0 →
      CanAddressingInformationHandler.get_ai_data_bytes_number fmt =
        CanAddressingInformationHandler.get_ai_data_bytes_number f0 := by
    intro f0 hf
    rw [hfmt] at hf
    injection hf with hf
    rw [hf]
  cases fmt with
  | NORMAL_11BIT_ADDRESSING =>
    obtain ⟨hc, hta, hsa, hae⟩ := hw
    rw [hcid, hta, hsa, hae]
    rw [CanPacketS.setai_11_eq, CanPacketS.ai11_ok hml hc]
    exact ⟨rfl, rfl⟩
  | NORMAL_FIXED_ADDRESSING =>
    obtain ⟨hae, t, s, ht, hs, hta, hsa, hceq⟩ := hw
    rw [hcid, hta, hsa, hae]
    rw [CanPacketS.setai_nf_eq]
    have hdec : CanIdHandler.decode_normal_fixed_addressed_can_id cid =
        some (typ, t, s) := by
      rw [hceq]
      exact CanIdHandler.decode_encode_normal_fixed typ ht hs
    rw [CanPacketS.aiNF_ok_cid hml hdec (Or.inr rfl) (Or.inr rfl)]
    exact ⟨rfl, rfl⟩
  | EXTENDED_ADDRESSING =>
    obtain ⟨hsa, hae, hc, t, ht, hta⟩ := hw
    have hai : ai = [t] := by
      rw [hta] at henc
      unfold CanAddressingInformationHandler.encode_ai_data_bytes at henc
      dsimp only at henc
      rw [if_pos ht] at henc
      injection henc with henc
      exact henc.symm
    have htake1 : rfd.take 1 = [t] := by
      rw [hai] at htake
      exact htake
    rw [hcid, hta, hsa, hae]
    rw [CanPacketS.setai_ext_eq, CanPacketS.aiExt_ok hml hc ht]
    refine ⟨rfl, ?_⟩
    show p.raw_frame_data.map (fun r => t :: r.drop 1) = p.raw_frame_data
    rw [hraw]
    exact congrArg some (List.take_one_cons htake1)
  | MIXED_11BIT_ADDRESSING =>
    obtain ⟨hta, hsa, hc, a, ha, hae⟩ := hw
    have hai : ai = [a] := by
      rw [hae] at henc
      unfold CanAddressingInformationHandler.encode_ai_data_bytes at henc
      dsimp only at henc
      rw [if_pos ha] at henc
      injection henc with henc
      exact henc.symm
    have htake1 : rfd.take 1 = [a] := by
      rw [hai] at htake
      exact htake
    rw [hcid, hta, hsa, hae]
    rw [CanPacketS.setai_m11_eq, CanPacketS.aiM11_ok hml hc ha]
    refine ⟨rfl, ?_⟩
    show p.raw_frame_data.map (fun r => a :: r.drop 1) = p.raw_frame_data
    rw [hraw]
    exact congrArg some (List.take_one_cons htake1)
  | MIXED_29BIT_ADDRESSING =>
    obtain ⟨t, s, a, ht, hs, ha, hta, hsa, hae, hceq⟩ := hw
    have hai : ai = [a] := by
      rw [hae] at henc
      unfold CanAddressingInformationHandler.encode_ai_data_bytes at henc
      dsimp only at henc
      rw [if_pos ha] at henc
      injection henc with henc
      exact henc.symm
    have htake1 : rfd.take 1 = [a] := by
      rw [hai] at htake
      exact htake
    have hdec : CanIdHandler.decode_mixed_addressed_29bit_can_id cid =
        some (typ, t, s) := by
      rw [hceq]
      exact CanIdHandler.decode_encode_mixed_29bit typ ht hs
    rw [hcid, hta, hsa, hae]
    rw [CanPacketS.setai_m29_eq, CanPacketS.aiM29_ok_cid hml hdec ha
      (Or.inr rfl) (Or.inr rfl)]
    refine ⟨rfl, ?_⟩
    show p.raw_frame_data.map (fun r => a :: r.drop 1) = p.raw_frame_data
    rw [hraw]
    exact congrArg some (List.take_one_cons htake1)

theorem claim_C2_witness :
    ∃ fmt typ,
      (mkCanPacket .NORMAL_11BIT_ADDRESSING .PHYSICAL (some 1) none none none
        (.sf [2] none 170)).state.addressing_format = some fmt ∧
      (mkCanPacket .NORMAL_11BIT_ADDRESSING .PHYSICAL (some 1) none none none
        (.sf [2] none 170)).state.addressing_type = some typ ∧
      ((mkCanPacket .NORMAL_11BIT_ADDRESSING .PHYSICAL (some 1) none none none
          (.sf [2] none 170)).state.set_address_information fmt typ
        (mkCanPacket .NORMAL_11BIT_ADDRESSING .PHYSICAL (some 1) none none none
          (.sf [2] none 170)).state.can_id
        (mkCanPacket .NORMAL_11BIT_ADDRESSING .PHYSICAL (some 1) none none none
          (.sf [2] none 170)).state.target_address
        (mkCanPacket .NORMAL_11BIT_ADDRESSING .PHYSICAL (some 1) none none none
          (.sf [2] none 170)).state.source_address
        (mkCanPacket .NORMAL_11BIT_ADDRESSING .PHYSICAL (some 1) none none none
          (.sf [2] none 170)).state.address_extension).error = none ∧
      ((mkCanPacket .NORMAL_11BIT_ADDRESSING .PHYSICAL (some 1) none none none
          (.sf [2] none 170)).state.set_address_information fmt typ
        (mkCanPacket .NORMAL_11BIT_ADDRESSING .PHYSICAL (some 1) none none none
          (.sf [2] none 170)).state.can_id
        (mkCanPacket .NORMAL_11BIT_ADDRESSING .PHYSICAL (some 1) none none none
          (.sf [2] none 170)).state.target_address
        (mkCanPacket .NORMAL_11BIT_ADDRESSING .PHYSICAL (some 1) none none none
          (.sf [2] none 170)).state.source_address
        (mkCanPacket .NORMAL_11BIT_ADDRESSING .PHYSICAL (some 1) none none none
          (.sf [2] none 170)).state.address_extension).state.raw_frame_data =
        (mkCanPacket .NORMAL_11BIT_ADDRESSING .PHYSICAL (some 1) none none none
          (.sf [2] none 170)).state.raw_frame_data :=
  claim_C2_set_ai_idempotent _ (CanReachable.construct (by decide))

/-- C8: on a constructed `CanPacket`, each kind-specific accessor
returns `None` exactly when the field is not defined for the current
packet type: `payload` is `None` unless the type is SF, FF or CF;
`data_length` unless SF or FF; `sequence_number` unless CF;
`flow_status`, `block_size` and `st_min` unless FC. -/
theorem claim_C8_accessor_absence :
    ∀ p : CanPacketS, CanReachable p →
      ∃ pt, p.packet_type = some pt ∧
        ((p.payload ≠ none) ↔
          (pt = .SINGLE_FRAME ∨ pt = .FIRST_FRAME ∨ pt = .CONSECUTIVE_FRAME)) ∧
        ((p.data_length ≠ none) ↔ (pt = .SINGLE_FRAME ∨ pt = .FIRST_FRAME)) ∧
        ((p.sequence_number ≠ none) ↔ pt = .CONSECUTIVE_FRAME) ∧
        ((p.flow_status ≠ none) ↔ pt = .FLOW_CONTROL) ∧
        ((p.block_size ≠ none) ↔ pt = .FLOW_CONTROL) ∧
        ((p.st_min ≠ none) ↔ pt = .FLOW_CONTROL) := by
  intro p hr
  obtain ⟨fmt, typ, cid, d, pt, rfd, hfmt, htyp, hcid, hdlc, hpt, hraw, hw, hd15,
    hlen, hlt, hhead, hfr⟩ := hr.wf
  refine ⟨pt, hpt, ?_⟩
  cases pt with
  | SINGLE_FRAME =>
    obtain ⟨h1, h2⟩ := hfr
    simp only [CanPacketS.payload, CanPacketS.data_length, CanPacketS.sequence_number,
      CanPacketS.flow_status, CanPacketS.block_size, CanPacketS.st_min, hpt, hfmt, hraw]
    refine ⟨?_, ?_, ?_, ?_, ?_, ?_⟩ <;>
      simp [← Option.ne_none_iff_isSome] at h1 h2 ⊢ <;> simp [h1, h2]
  | FIRST_FRAME =>
    obtain ⟨h1, h2⟩ := hfr
    simp only [CanPacketS.payload, CanPacketS.data_length, CanPacketS.sequence_number,
      CanPacketS.flow_status, CanPacketS.block_size, CanPacketS.st_min, hpt, hfmt, hraw]
    refine ⟨?_, ?_, ?_, ?_, ?_, ?_⟩ <;>
      simp [← Option.ne_none_iff_isSome] at h1 h2 ⊢ <;> simp [h1, h2]
  | CONSECUTIVE_FRAME =>
    obtain ⟨h1, h2⟩ := hfr
    simp only [CanPacketS.payload, CanPacketS.data_length, CanPacketS.sequence_number,
      CanPacketS.flow_status, CanPacketS.block_size, CanPacketS.st_min, hpt, hfmt, hraw]
    refine ⟨?_, ?_, ?_, ?_, ?_, ?_⟩ <;>
      simp [← Option.ne_none_iff_isSome] at h1 h2 ⊢ <;> simp [h1, h2]
  | FLOW_CONTROL =>
    obtain ⟨h1, h2, h3⟩ := hfr
    simp only [CanPacketS.payload, CanPacketS.data_length, CanPacketS.sequence_number,
      CanPacketS.flow_status, CanPacketS.block_size, CanPacketS.st_min, hpt, hfmt, hraw]
    refine ⟨?_, ?_, ?_, ?_, ?_, ?_⟩ <;>
      simp [← Option.ne_none_iff_isSome] at h1 h2 h3 ⊢ <;> simp [h1, h2, h3]

theorem claim_C8_witness :
    ∃ pt,
      (mkCanPacket .NORMAL_11BIT_ADDRESSING .PHYSICAL (some 1) none none none
        (.sf [2] none 170)).state.packet_type = some pt ∧
      (((mkCanPacket .NORMAL_11BIT_ADDRESSING .PHYSICAL (some 1) none none none
          (.sf [2] none 170)).state.payload ≠ none) ↔
        (pt = .SINGLE_FRAME ∨ pt = .FIRST_FRAME ∨ pt = .CONSECUTIVE_FRAME)) ∧
      (((mkCanPacket .NORMAL_11BIT_ADDRESSING .PHYSICAL (some 1) none none none
          (.sf [2] none 170)).state.data_length ≠ none) ↔
        (pt = .SINGLE_FRAME ∨ pt = .FIRST_FRAME)) ∧
      (((mkCanPacket .NORMAL_11BIT_ADDRESSING .PHYSICAL (some 1) none none none
          (.sf [2] none 170)).state.sequence_number ≠ none) ↔
        pt = .CONSECUTIVE_FRAME) ∧
      (((mkCanPacket .NORMAL_11BIT_ADDRESSING .PHYSICAL (some 1) none none none
          (.sf [2] none 170)).state.flow_status ≠ none) ↔ pt = .FLOW_CONTROL) ∧
      (((mkCanPacket .NORMAL_11BIT_ADDRESSING .PHYSICAL (some 1) none none none
          (.sf [2] none 170)).state.block_size ≠ none) ↔ pt = .FLOW_CONTROL) ∧
      (((mkCanPacket .NORMAL_11BIT_ADDRESSING .PHYSICAL (some 1) none none none
          (.sf [2] none 170)).state.st_min ≠ none) ↔ pt = .FLOW_CONTROL) :=
  claim_C8_accessor_absence _ (CanReachable.construct (by decide))
